import Mathlib

/-
Verification development for the daily points/penalty ledger and rollover
engine of the task-manager backend.

Modelling conventions, used throughout:
- Python floats are modelled as exact rationals (Rat); the decimal literals
  of the source become the corresponding rationals.
- Python int() applied to a number truncates toward zero; pyInt models this.
- Python max/min of two numbers are pymax/pymin.
- Dates are integers (a linear day count; day 0 is chosen to be a Monday so
  that weekday d = d mod 7 matches date.weekday()); datetimes are integers
  counting minutes, so the datetime of day d at time h:m is d*1440+h*60+m.
  Seconds are not modelled (the code only compares datetimes at minute
  granularity in the paths verified here).
- The SQLAlchemy session plus point_history table is a list of PointHistory
  records, one per date (dates are unique in the table by schema).
- The JSON details column is modelled parsed: none is a NULL column, and the
  three sub-objects task_completions, planned_tasks, penalty_breakdown are
  structure fields; an absent key is the empty list or none, matching how
  the code reads them with dict.get defaults.  The wall-clock timestamp
  stored inside each task_completions entry is not modelled.
- Callbacks passed into PenaltyService (get_completed_count,
  get_missed_habits, count_habits_due) are pure reads for the day range of
  the target date, so they are passed as the values they would return; the
  roll_forward_habit callback is a side effect on the tasks table, so each
  finalize function additionally returns the list of habits it passed to
  that callback, in call order.
-/

/-- Python int() on a float/rational: truncation toward zero. -/
def pyInt (q : Rat) : Int := if q < 0 then -(Rat.floor (-q)) else Rat.floor q

/-- Python max of two integers. -/
def pymax (a b : Int) : Int := if a < b then b else a

/-- Python min of two rationals. -/
def pymin (a b : Rat) : Rat := if b < a then b else a

theorem pymax_eq_max (a b : Int) : pymax a b = max a b := by
  simp only [pymax, max_def]
  split <;> split <;> omega

theorem pyInt_nonneg_eq_floor (q : Rat) (h : 0 ≤ q) : pyInt q = Rat.floor q := by
  simp only [pyInt]
  rw [if_neg (not_lt.mpr h)]

theorem le_pymax_left (a b : Int) : a ≤ pymax a b := by
  simp only [pymax]; split <;> omega

/-- max 1 of the truncation equals max 1 of the floor: they differ only on
negative non-integers, where both sides are 1. -/
theorem pymax_one_pyInt (q : Rat) : pymax 1 (pyInt q) = pymax 1 (Rat.floor q) := by
  rcases le_or_lt 0 q with h | h
  · rw [pyInt_nonneg_eq_floor q h]
  · have hf : Rat.floor q ≤ 0 := by
      by_contra hc
      have h1 : (1 : Int) ≤ Rat.floor q := by omega
      have := Rat.le_floor.mp h1
      have : (1 : Rat) ≤ q := by exact_mod_cast this
      linarith
    have ht : pyInt q ≤ 0 := by
      simp only [pyInt, if_pos h]
      have h0 : ((0 : Int) : Rat) ≤ -q := by push_cast; linarith
      have := Rat.le_floor.mpr h0
      omega
    simp only [pymax]
    split <;> split <;> omega

/-- One task_completions entry of the details payload (timestamp omitted). -/
structure TaskCompletion where
  task_id : Option Int
  description : String
  is_habit : Bool
  points : Int
  deriving Repr, DecidableEq

/-- One planned_tasks entry of the details payload; energy may be absent
(the code reads it with default 3). -/
structure PlannedTask where
  task_id : Option Int
  description : String
  energy : Option Int
  deriving Repr, DecidableEq

/-- One entry of the missed_habits list of a penalty breakdown. -/
structure MissedHabitDetail where
  id : Option Int
  description : String
  habit_type : Option String
  penalty : Int
  deriving Repr, DecidableEq

/-- One entry of the incomplete_tasks list of a penalty breakdown. -/
structure IncompleteTaskDetail where
  id : Option Int
  description : String
  energy : Int
  potential : Int
  deriving Repr, DecidableEq

/-- The penalty_breakdown sub-object; its presence is the finalized marker.
auto_finalized is stored true only by the no-history path (a false here
models the key being absent). -/
structure PenaltyBreakdown where
  idle_penalty : Int
  incomplete_penalty : Int
  missed_habits_penalty : Int
  progressive_multiplier : Rat
  penalty_streak : Int
  total_penalty : Int
  missed_habits : List MissedHabitDetail
  incomplete_tasks : List IncompleteTaskDetail
  auto_finalized : Bool
  deriving Repr, DecidableEq

/-- The parsed JSON details column. -/
structure Details where
  task_completions : List TaskCompletion
  planned_tasks : List PlannedTask
  penalty_breakdown : Option PenaltyBreakdown
  deriving Repr, DecidableEq

def Details.empty : Details := ⟨[], [], none⟩

/-- One row of the point_history table (the DayRecord of the spec). -/
structure PointHistory where
  date : Int
  points_earned : Int := 0
  points_penalty : Int := 0
  points_bonus : Int := 0
  daily_total : Int := 0
  cumulative_total : Int := 0
  tasks_completed : Int := 0
  habits_completed : Int := 0
  tasks_planned : Int := 0
  completion_rate : Rat := 0
  penalty_streak : Int := 0
  details : Option Details := none
  deriving Repr, DecidableEq

/-- The whole point_history table. -/
abbrev Ledger := List PointHistory

/-- One dict produced by TaskService.get_missed_habits. -/
structure HabitInfo where
  id : Option Int
  description : String
  habit_type : Option String
  deriving Repr, DecidableEq

/-- The settings dict read by the penalty service, with the dict.get
defaults of the source. -/
structure SettingsData where
  idle_penalty : Int := 30
  incomplete_penalty_percent : Rat := 0.5
  missed_habit_penalty_base : Int := 15
  progressive_penalty_factor : Rat := 0.1
  progressive_penalty_max : Rat := 1.5
  completion_bonus_full : Rat := 0.10
  completion_bonus_good : Rat := 0.05
  points_per_task_base : Int := 10
  energy_mult_base : Rat := 0.6
  energy_mult_step : Rat := 0.2
  penalty_streak_reset_days : Nat := 2
  deriving Repr, DecidableEq

/-- The dict returned by penalty finalization.  Option fields model keys
that are present only on some return paths (none = key absent), so equality
of two FinalizeResult values is equality of the Python dicts. -/
structure FinalizeResult where
  penalty : Int
  completion_rate : Rat
  tasks_completed : Int
  tasks_planned : Int
  missed_habits : Int
  missed_task_potential : Option Int := none
  already_finalized : Option Bool := none
  auto_finalized : Option Bool := none
  is_rest_day : Option Bool := none
  deriving Repr, DecidableEq

/-- PointHistoryRepository.get_by_date. -/
def get_by_date (L : Ledger) (d : Int) : Option PointHistory :=
  L.find? (fun h => h.date == d)

/-- PointHistoryRepository.get_most_recent: the row with the largest
date strictly before d. -/
def get_most_recent (L : Ledger) (d : Int) : Option PointHistory :=
  (L.filter (fun h => h.date < d)).foldl
    (fun acc h => match acc with
      | none => some h
      | some a => if a.date < h.date then some h else some a) none

/-- Writing back a mutated session row: the row with the same date is
replaced (dates are unique in the table). -/
def update_record (L : Ledger) (r : PointHistory) : Ledger :=
  L.map (fun h => if h.date == r.date then r else h)

/-- PenaltyService._propagate_cumulative_change: every later row is
clamped at zero after the shift. -/
def penalty_propagate_cumulative_change (L : Ledger) (from_date : Int) (delta : Int) : Ledger :=
  L.map (fun h =>
    if from_date < h.date then
      { h with cumulative_total := pymax 0 (h.cumulative_total + delta) }
    else h)

/-- PointsService.propagate_cumulative_change: the shift is applied with no
clamp. -/
def points_propagate_cumulative_change (L : Ledger) (from_date : Int) (delta : Int) : Ledger :=
  L.map (fun h =>
    if from_date < h.date then
      { h with cumulative_total := h.cumulative_total + delta }
    else h)

/-- PenaltyService._is_day_finalized: the details JSON holds a
penalty_breakdown key. -/
def is_day_finalized (h : PointHistory) : Bool :=
  match h.details with
  | none => false
  | some d => d.penalty_breakdown.isSome

/-- PenaltyService._rest_day_result. -/
def rest_day_result : FinalizeResult :=
  { penalty := 0, completion_rate := 1, tasks_completed := 0, tasks_planned := 0,
    missed_habits := 0, is_rest_day := some true }

/-- PenaltyService._no_history_result. -/
def no_history_result : FinalizeResult :=
  { penalty := 0, completion_rate := 0, tasks_completed := 0, tasks_planned := 0,
    missed_habits := 0 }

/-- PenaltyService._update_completion_counts: max against the authoritative
counts, never regressing. -/
def update_completion_counts (h : PointHistory) (actual_tasks actual_habits : Int) : PointHistory :=
  { h with tasks_completed := pymax h.tasks_completed actual_tasks,
           habits_completed := pymax h.habits_completed actual_habits }

/-- PenaltyService._calculate_idle_penalty. -/
def calculate_idle_penalty (h : PointHistory) (s : SettingsData) : Int :=
  if h.tasks_completed == 0 && h.habits_completed == 0 then s.idle_penalty else 0

def details_planned_tasks (h : PointHistory) : List PlannedTask :=
  match h.details with
  | none => []
  | some d => d.planned_tasks

def details_completed_ids (h : PointHistory) : List Int :=
  match h.details with
  | none => []
  | some d => d.task_completions.filterMap (fun c => c.task_id)

/-- PenaltyService._calculate_incomplete_penalty.  Returns the mutated row
together with (penalty, missed_task_potential, incomplete_tasks). -/
def calculate_incomplete_penalty (h : PointHistory) (s : SettingsData) :
    PointHistory × Int × Int × List IncompleteTaskDetail :=
  if h.tasks_planned == 0 then (h, 0, 0, [])
  else
    let rate := pymin ((h.tasks_completed : Rat) / (h.tasks_planned : Rat)) 1
    let h := { h with completion_rate := rate }
    let planned := details_planned_tasks h
    if planned.isEmpty then
      let incomplete_count := h.tasks_planned - h.tasks_completed
      if incomplete_count ≤ 0 then (h, 0, 0, [])
      else
        let energy_mult := s.energy_mult_base + 3 * s.energy_mult_step
        let potential_per_task := (s.points_per_task_base : Rat) * energy_mult
        let missed_task_potential := pyInt ((incomplete_count : Rat) * potential_per_task)
        let pen := pyInt ((missed_task_potential : Rat) * s.incomplete_penalty_percent)
        (h, pen, missed_task_potential, [])
    else
      let completed_ids := details_completed_ids h
      let step := fun (acc : Rat × List IncompleteTaskDetail) (t : PlannedTask) =>
        match t.task_id with
        | some tid =>
          if completed_ids.contains tid then acc
          else
            let task_energy := (t.energy).getD 3
            let energy_mult := s.energy_mult_base + (task_energy : Rat) * s.energy_mult_step
            let potential := (s.points_per_task_base : Rat) * energy_mult
            (acc.1 + potential,
             acc.2 ++ [{ id := some tid, description := t.description,
                         energy := task_energy, potential := pyInt potential }])
        | none =>
          let task_energy := (t.energy).getD 3
          let energy_mult := s.energy_mult_base + (task_energy : Rat) * s.energy_mult_step
          let potential := (s.points_per_task_base : Rat) * energy_mult
          (acc.1 + potential,
           acc.2 ++ [{ id := none, description := t.description,
                       energy := task_energy, potential := pyInt potential }])
      let res := planned.foldl step ((0 : Rat), ([] : List IncompleteTaskDetail))
      if res.1 == 0 then (h, 0, 0, [])
      else
        let pen := pyInt (res.1 * s.incomplete_penalty_percent)
        (h, pen, pyInt res.1, res.2)

/-- PenaltyService._apply_consistency_bonus. -/
def apply_consistency_bonus (h : PointHistory) (s : SettingsData) : PointHistory :=
  if h.points_earned ≤ 0 then h
  else if 1 ≤ h.completion_rate then
    { h with points_bonus := pyInt ((h.points_earned : Rat) * s.completion_bonus_full) }
  else if 0.8 ≤ h.completion_rate then
    { h with points_bonus := pyInt ((h.points_earned : Rat) * s.completion_bonus_good) }
  else h

/-- Per-habit missed penalty: base for a skill habit, int(base * 0.5) for
anything else (ROUTINE_PENALTY_MULTIPLIER = 0.5). -/
def habit_penalty_amount (s : SettingsData) (hab : HabitInfo) : Int :=
  if hab.habit_type == some "skill" then s.missed_habit_penalty_base
  else pyInt ((s.missed_habit_penalty_base : Rat) * 0.5)

def missed_habit_detail (s : SettingsData) (hab : HabitInfo) : MissedHabitDetail :=
  { id := hab.id, description := hab.description, habit_type := hab.habit_type,
    penalty := habit_penalty_amount s hab }

/-- PenaltyService._calculate_missed_habits_penalty. -/
def calculate_missed_habits_penalty (s : SettingsData) (missed : List HabitInfo) :
    List MissedHabitDetail × Int :=
  if missed.isEmpty then ([], 0)
  else (missed.map (missed_habit_detail s), (missed.map (habit_penalty_amount s)).sum)

/-- The 30-iteration walk-back inside _get_effective_penalty_streak. -/
def effective_streak_loop (L : Ledger) : Nat → Int → Int → Int
  | 0, _, streak => streak
  | n + 1, cur, streak =>
    match get_by_date L cur with
    | none => streak
    | some prev =>
      if 0 < prev.penalty_streak then streak + prev.penalty_streak
      else if 0 < prev.points_penalty then effective_streak_loop L n (cur - 1) (streak + 1)
      else streak

/-- PenaltyService._get_effective_penalty_streak. -/
def get_effective_penalty_streak (L : Ledger) (check_date : Int) : Int :=
  match get_by_date L check_date with
  | none => 0
  | some h =>
    if 0 < h.penalty_streak then h.penalty_streak
    else if 0 < h.points_penalty then effective_streak_loop L 30 (check_date - 1) 1
    else 0

/-- The consecutive-clean-days loop inside _apply_progressive_multiplier:
walks back at most reset_days days, counting stored rows with zero penalty,
stopping at a missing row or a penalized row. -/
def clean_count_loop (L : Ledger) : Nat → Int → Nat → Nat
  | 0, _, acc => acc
  | n + 1, check, acc =>
    match get_by_date L (check - 1) with
    | none => acc
    | some prev =>
      if 0 < prev.points_penalty then acc
      else clean_count_loop L n (check - 1) (acc + 1)

/-- PenaltyService._apply_progressive_multiplier.  Returns the mutated row,
the (possibly multiplied) penalty and the multiplier. -/
def apply_progressive_multiplier (L : Ledger) (penalty : Int) (target_date : Int)
    (h : PointHistory) (s : SettingsData) : PointHistory × Int × Rat :=
  if 0 < penalty then
    let yesterday_streak := get_effective_penalty_streak L (target_date - 1)
    let streak := if 0 < yesterday_streak then yesterday_streak + 1 else 1
    let h := { h with penalty_streak := streak }
    let mult := 1 + pymin ((streak : Rat) * s.progressive_penalty_factor)
                          (s.progressive_penalty_max - 1)
    (h, pyInt ((penalty : Rat) * mult), mult)
  else
    let consecutive_clean := clean_count_loop L s.penalty_streak_reset_days target_date 0
    if s.penalty_streak_reset_days ≤ consecutive_clean then
      ({ h with penalty_streak := 0 }, penalty, 1)
    else
      match get_by_date L (target_date - 1) with
      | some y => ({ h with penalty_streak := y.penalty_streak }, penalty, 1)
      | none => ({ h with penalty_streak := 0 }, penalty, 1)

/-- PenaltyService._apply_final_penalties: writes the penalty into the row,
recomputes daily_total, clamps this row's cumulative_total at zero, writes
the row back and, when the net change is nonzero, propagates the clamped
delta (with per-row clamping) to all later rows. -/
def apply_final_penalties (L : Ledger) (h : PointHistory) (penalty : Int) :
    Ledger × PointHistory :=
  let h := { h with points_penalty := penalty,
                    daily_total := h.points_earned + h.points_bonus - penalty }
  let net_change := h.points_bonus - penalty
  let old_cumulative := h.cumulative_total
  let h := { h with cumulative_total := pymax 0 (h.cumulative_total + net_change) }
  let L := update_record L h
  if net_change ≠ 0 then
    (penalty_propagate_cumulative_change L h.date (h.cumulative_total - old_cumulative), h)
  else (L, h)

/-- PenaltyService._save_penalty_breakdown. -/
def save_penalty_breakdown (L : Ledger) (h : PointHistory)
    (idle incomplete habits : Int) (mult : Rat) (total : Int)
    (missed : List MissedHabitDetail) (incompleteTasks : List IncompleteTaskDetail) :
    Ledger × PointHistory :=
  let base := h.details.getD Details.empty
  let bd : PenaltyBreakdown :=
    { idle_penalty := idle, incomplete_penalty := incomplete,
      missed_habits_penalty := habits, progressive_multiplier := mult,
      penalty_streak := h.penalty_streak, total_penalty := total,
      missed_habits := missed, incomplete_tasks := incompleteTasks,
      auto_finalized := false }
  let newDetails : Details := { base with penalty_breakdown := some bd }
  let h := { h with details := some newDetails }
  (update_record L h, h)

/-- PenaltyService._handle_no_history: target has no row.  If no habits were
due the call is a no-op; otherwise a row is created, idle and missed-habit
penalties are charged with the progressive multiplier, every missed habit is
passed to roll_forward_habit, and the clamped delta is propagated. -/
def handle_no_history (L : Ledger) (target_date : Int) (s : SettingsData)
    (missed_habits : List HabitInfo) (habits_due : Int) :
    Ledger × FinalizeResult × List HabitInfo :=
  if habits_due == 0 then (L, no_history_result, [])
  else
    let previous_cumulative := (get_most_recent L target_date).elim 0 (fun p => p.cumulative_total)
    let h0 : PointHistory := { date := target_date, cumulative_total := previous_cumulative }
    let L := L ++ [h0]
    let idle := s.idle_penalty
    let missed_details := missed_habits.map (missed_habit_detail s)
    let habits_pen := (missed_habits.map (habit_penalty_amount s)).sum
    let base_pen := idle + habits_pen
    let yesterday_streak := get_effective_penalty_streak L (target_date - 1)
    let streak := if 0 < yesterday_streak then yesterday_streak + 1 else 1
    let mult := 1 + pymin ((streak : Rat) * s.progressive_penalty_factor)
                          (s.progressive_penalty_max - 1)
    let total := pyInt ((base_pen : Rat) * mult)
    let bd : PenaltyBreakdown :=
      { idle_penalty := idle, incomplete_penalty := 0,
        missed_habits_penalty := habits_pen,
        progressive_multiplier := mult, penalty_streak := streak,
        total_penalty := total, missed_habits := missed_details,
        incomplete_tasks := [], auto_finalized := true }
    let newDetails : Details :=
      { task_completions := [], planned_tasks := [], penalty_breakdown := some bd }
    let h : PointHistory :=
      { h0 with penalty_streak := streak, points_penalty := total,
                daily_total := -total,
                cumulative_total := pymax 0 (previous_cumulative - total),
                details := some newDetails }
    let L := update_record L h
    let delta := h.cumulative_total - previous_cumulative
    let L := if delta ≠ 0 then penalty_propagate_cumulative_change L target_date delta else L
    (L, { penalty := total, completion_rate := 0, tasks_completed := 0,
          tasks_planned := 0, missed_habits := missed_details.length,
          auto_finalized := some true }, missed_habits)

/-- The body of finalize_day_penalties once the row exists and is not yet
finalized. -/
def finalize_main (L : Ledger) (target_date : Int) (h0 : PointHistory)
    (actual_tasks actual_habits : Int) (missed_habits : List HabitInfo)
    (s : SettingsData) : Ledger × FinalizeResult × List HabitInfo :=
  let h1 := update_completion_counts h0 actual_tasks actual_habits
  let idle := calculate_idle_penalty h1 s
  let inc := calculate_incomplete_penalty h1 s
  let h2 := inc.1
  let incomplete_pen := inc.2.1
  let missed_task_potential := inc.2.2.1
  let incomplete_tasks := inc.2.2.2
  let h3 := apply_consistency_bonus h2 s
  let mh := calculate_missed_habits_penalty s missed_habits
  let missed_details := mh.1
  let habits_pen := mh.2
  let pm := apply_progressive_multiplier L (idle + incomplete_pen + habits_pen) target_date h3 s
  let h4 := pm.1
  let pen := pm.2.1
  let mult := pm.2.2
  let fin := apply_final_penalties L h4 pen
  let sav := save_penalty_breakdown fin.1 fin.2 idle incomplete_pen habits_pen mult pen
      missed_details incomplete_tasks
  (sav.1,
   { penalty := pen, completion_rate := sav.2.completion_rate,
     tasks_completed := sav.2.tasks_completed, tasks_planned := sav.2.tasks_planned,
     missed_habits := missed_details.length,
     missed_task_potential := some missed_task_potential }, [])

/-- PenaltyService.finalize_day_penalties.  Inputs stand for the values the
callbacks return on the target day range; the third component of the result
is the list of habits passed to roll_forward_habit. -/
def finalize_day_penalties (L : Ledger) (target_date : Int) (is_rest_day : Bool)
    (actual_tasks actual_habits : Int) (missed_habits : List HabitInfo)
    (habits_due : Int) (s : SettingsData) : Ledger × FinalizeResult × List HabitInfo :=
  if is_rest_day then (L, rest_day_result, [])
  else
    match get_by_date L target_date with
    | none => handle_no_history L target_date s missed_habits habits_due
    | some h =>
      if 0 < h.points_penalty || is_day_finalized h then
        (L, { penalty := h.points_penalty, completion_rate := h.completion_rate,
              tasks_completed := h.tasks_completed, tasks_planned := h.tasks_planned,
              missed_habits := 0, already_finalized := some true }, [])
      else finalize_main L target_date h actual_tasks actual_habits missed_habits s

/-- PointsService.calculate_task_points result record. -/
structure PointsCalculationResult where
  points : Int
  energy_multiplier : Rat
  time_quality_factor : Rat
  focus_factor : Rat
  deriving Repr, DecidableEq

/-- PointsService._calculate_time_quality_factor, with the constants
TIME_QUALITY_THRESHOLD = 0.5, TIME_RATIO_THRESHOLD_LOW = 0.8,
TIME_RATIO_THRESHOLD_HIGH = 1.5, TIME_RATIO_THRESHOLD_VERY_HIGH = 3.0,
TIME_QUALITY_FACTOR_GOOD = 0.9, TIME_QUALITY_FACTOR_BAD = 0.7. -/
def calculate_time_quality_factor (actual_time energy minutes_per_energy_unit
    min_work_time_seconds : Int) : Rat :=
  let expected_time := energy * minutes_per_energy_unit * 60
  if actual_time < min_work_time_seconds then 0.5
  else if expected_time == 0 then 1
  else
    let timeFrac := (actual_time : Rat) / (expected_time : Rat)
    if timeFrac < 0.5 then 0.8
    else if timeFrac ≤ 1.5 then 1
    else if timeFrac ≤ 3 then 0.9
    else 0.7

/-- PointsService.calculate_task_points; started is the truthiness of
started_at (FOCUS_PENALTY_MULTIPLIER = 0.8). -/
def calculate_task_points (energy time_spent : Int) (started : Bool)
    (points_per_task_base : Int) (energy_mult_base energy_mult_step : Rat)
    (minutes_per_energy_unit min_work_time_seconds : Int) : PointsCalculationResult :=
  let base := points_per_task_base
  let energy_multiplier := energy_mult_base + (energy : Rat) * energy_mult_step
  let time_quality_factor := calculate_time_quality_factor time_spent energy
      minutes_per_energy_unit min_work_time_seconds
  let focus_factor : Rat := if started then 1 else 0.8
  let total_points := (base : Rat) * energy_multiplier * time_quality_factor * focus_factor
  { points := pymax 1 (pyInt total_points),
    energy_multiplier := energy_multiplier,
    time_quality_factor := time_quality_factor,
    focus_factor := focus_factor }

/-- PointsService.calculate_habit_points.  log2fn models math.log2 (the only
transcendental in the formula); every theorem below holds for any value of
it, so nothing depends on its numerics. -/
def calculate_habit_points (log2fn : Int → Rat) (habit_type : String) (streak : Int)
    (points_per_habit_base routine_points_fixed : Int) (streak_log_factor : Rat) : Int :=
  if habit_type != "skill" then routine_points_fixed
  else
    let streak_bonus := 1 + log2fn (streak + 1) * streak_log_factor
    pymax 1 (pyInt ((points_per_habit_base : Rat) * streak_bonus))

/-- PointsService.get_or_create_today_history. -/
def get_or_create_today_history (L : Ledger) (today : Int) : Ledger × PointHistory :=
  match get_by_date L today with
  | some h => (L, h)
  | none =>
    let previous_total := (get_most_recent L today).elim 0 (fun p => p.cumulative_total)
    let h : PointHistory := { date := today, cumulative_total := previous_total }
    (L ++ [h], h)

/-- PointsService.add_task_completion_points: computes the reward, bumps the
counters and totals of today's row and appends a task_completions entry.
Returns the ledger and the points credited. -/
def add_task_completion_points (log2fn : Int → Rat) (L : Ledger) (task_id : Int)
    (energy : Int) (is_habit : Bool) (habit_type : String) (streak : Int)
    (time_spent : Int) (started : Bool) (points_per_task_base points_per_habit_base : Int)
    (energy_mult_base energy_mult_step : Rat)
    (minutes_per_energy_unit min_work_time_seconds : Int) (streak_log_factor : Rat)
    (routine_points_fixed : Int) (today : Int) (description : String) : Ledger × Int :=
  let points :=
    if is_habit then
      calculate_habit_points log2fn habit_type streak points_per_habit_base
        routine_points_fixed streak_log_factor
    else
      (calculate_task_points energy time_spent started points_per_task_base
        energy_mult_base energy_mult_step minutes_per_energy_unit
        min_work_time_seconds).points
  let goc := get_or_create_today_history L today
  let h := goc.2
  let h := if is_habit then { h with habits_completed := h.habits_completed + 1 }
           else { h with tasks_completed := h.tasks_completed + 1 }
  let h := { h with points_earned := h.points_earned + points }
  let h := { h with daily_total := h.points_earned + h.points_bonus - h.points_penalty,
                    cumulative_total := h.cumulative_total + points }
  let det := h.details.getD Details.empty
  let entry : TaskCompletion :=
    { task_id := some task_id, description := description, is_habit := is_habit,
      points := points }
  let newDetails : Details := { det with task_completions := det.task_completions ++ [entry] }
  let h := { h with details := some newDetails }
  (update_record goc.1 h, points)

/-- The calendar date of a datetime counted in minutes. -/
def dateOf (dt : Int) : Int := Int.fdiv dt 1440

/-- The minutes-of-day of a datetime (now.hour * 60 + now.minute). -/
def timeOf (dt : Int) : Int := dt - 1440 * dateOf dt

/-- The datetime of day d at time h:m. -/
def mkDT (d hr mi : Int) : Int := d * 1440 + hr * 60 + mi

/-- Python str.split applied with separator ":". -/
def split_on_colon : List Char → List (List Char)
  | [] => [[]]
  | c :: rest =>
    let r := split_on_colon rest
    if c = ':' then [] :: r
    else
      match r with
      | [] => [[c]]
      | hd :: tl => (c :: hd) :: tl

/-- Python int() on a string: an optional sign followed by one or more
digits (surrounding whitespace and underscore separators are not modelled). -/
def py_int_of_string (s : List Char) : Option Int :=
  match s with
  | '-' :: rest =>
    if rest ≠ [] ∧ rest.all Char.isDigit then
      some (-(rest.foldl (fun acc c => acc * 10 + ((c.toNat : Int) - 48)) 0))
    else none
  | '+' :: rest =>
    if rest ≠ [] ∧ rest.all Char.isDigit then
      some (rest.foldl (fun acc c => acc * 10 + ((c.toNat : Int) - 48)) 0)
    else none
  | _ =>
    if s ≠ [] ∧ s.all Char.isDigit then
      some (s.foldl (fun acc c => acc * 10 + ((c.toNat : Int) - 48)) 0)
    else none

/-- Python str.zfill(4): left-pad with zeros to length 4, sign-aware. -/
def zfill4 (s : List Char) : List Char :=
  if 4 ≤ s.length then s
  else
    match s with
    | c :: rest =>
      if c = '-' ∨ c = '+' then c :: (List.replicate (4 - s.length) '0' ++ rest)
      else List.replicate (4 - s.length) '0' ++ s
    | [] => List.replicate 4 '0'

/-- The parse of get_effective_date: strip colons, zfill to 4, int() the
first two characters and the rest.  No range validation is performed. -/
def parse_day_start_loose (s : List Char) : Option (Int × Int) :=
  let t := zfill4 (s.filter (fun c => c ≠ ':'))
  match py_int_of_string (t.take 2), py_int_of_string (t.drop 2) with
  | some hr, some mi => some (hr, mi)
  | _, _ => none

/-- The string actually parsed: day_start_time or "06:00" (None and the
empty string are falsy). -/
def day_start_or_default (day_start_time : Option String) : List Char :=
  match day_start_time with
  | none => "06:00".data
  | some s => if s.isEmpty then "06:00".data else s.data

/-- date_utils.get_effective_date.  now is the current datetime in minutes;
the result is a date. -/
def get_effective_date (now : Int) (day_start_enabled : Bool)
    (day_start_time : Option String) : Int :=
  let today := dateOf now
  if !day_start_enabled then today
  else
    match parse_day_start_loose (day_start_or_default day_start_time) with
    | none => today
    | some (hr, mi) =>
      if timeOf now < hr * 60 + mi then today - 1 else today

/-- date_utils.parse_time: split on ":" and int() the first two parts
(an absent second part is an IndexError, caught by the caller). -/
def parse_time_str (s : List Char) : Option (Int × Int) :=
  match split_on_colon s with
  | p0 :: p1 :: _ =>
    match py_int_of_string p0, py_int_of_string p1 with
    | some hr, some mi => some (hr, mi)
    | _, _ => none
  | _ => none

/-- Whether datetime.time(hour, minute) accepts the pair. -/
def valid_time_pair (hr mi : Int) : Bool :=
  0 ≤ hr && hr ≤ 23 && 0 ≤ mi && mi ≤ 59

/-- A day-start string that parse_time accepts and that denotes a real
time of day; anything else makes get_day_range fall back to midnight. -/
def valid_day_start_string (s : List Char) : Bool :=
  match parse_time_str s with
  | some (hr, mi) => valid_time_pair hr mi
  | none => false

/-- date_utils.get_day_range: the half-open day interval, in minutes. -/
def get_day_range (target_date : Int) (day_start_enabled : Bool)
    (day_start_time : Option String) : Int × Int :=
  if !day_start_enabled then (target_date * 1440, (target_date + 1) * 1440)
  else
    let t := day_start_or_default day_start_time
    match parse_time_str t with
    | some (hr, mi) =>
      if valid_time_pair hr mi then
        (target_date * 1440 + hr * 60 + mi, (target_date + 1) * 1440 + hr * 60 + mi)
      else (target_date * 1440, (target_date + 1) * 1440)
    | none => (target_date * 1440, (target_date + 1) * 1440)

inductive RecurrenceType where
  | none
  | daily
  | every_n_days
  | weekly
  deriving Repr, DecidableEq

/-- date.weekday(): Monday is 0.  The linear day count is aligned so that
day 0 is a Monday. -/
def weekday (d : Int) : Int := Int.emod d 7

/-- date_utils._calculate_daily_occurrence. -/
def calculate_daily_occurrence (start_date now : Int) : Int :=
  let days_diff := dateOf now - dateOf start_date
  let current := start_date + days_diff * 1440
  if current < now then current + 1440 else current

/-- date_utils._calculate_every_n_days_occurrence. -/
def calculate_every_n_days_occurrence (start_date now interval : Int) : Int :=
  let days_diff := dateOf now - dateOf start_date
  let intervals_passed := Int.fdiv days_diff interval
  let next_interval := (intervals_passed + 1) * interval
  start_date + next_interval * 1440

/-- The weekly fallback: jump whole weeks from the start (used when the
weekday list is empty, null or unparseable - the two code paths coincide). -/
def weekly_fallback (start_date now : Int) : Int :=
  let days_diff := dateOf now - dateOf start_date
  let weeks_passed := Int.fdiv days_diff 7
  start_date + (weeks_passed + 1) * 7 * 1440

/-- The 14-day forward scan of _calculate_weekly_occurrence. -/
def weekly_scan (days : List Int) (current target_min now : Int) :
    Nat → Nat → Option Int
  | 0, _ => Option.none
  | fuel + 1, offset =>
    let check := current + (offset : Int)
    if days.contains (weekday check) then
      if offset == 0 && check * 1440 + target_min ≤ now then
        weekly_scan days current target_min now fuel (offset + 1)
      else some (check * 1440 + target_min)
    else weekly_scan days current target_min now fuel (offset + 1)

/-- date_utils._calculate_weekly_occurrence.  recurrence_days holds the
parsed JSON weekday list; Option.none stands for a null, empty or
unparseable value (all of which fall back identically). -/
def calculate_weekly_occurrence (start_date now : Int)
    (recurrence_days : Option (List Int)) : Int :=
  match recurrence_days with
  | Option.none => weekly_fallback start_date now
  | some [] => weekly_fallback start_date now
  | some days =>
    match weekly_scan days (dateOf now) (timeOf start_date) now 14 0 with
    | some dt => dt
    | Option.none => start_date + 7 * 1440

/-- date_utils.calculate_next_occurrence. -/
def calculate_next_occurrence (start_date now : Int) (recurrence_type : RecurrenceType)
    (recurrence_interval : Int) (recurrence_days : Option (List Int)) : Int :=
  match recurrence_type with
  | .none => start_date
  | rt =>
    if now ≤ start_date then start_date
    else
      match rt with
      | .daily => calculate_daily_occurrence start_date now
      | .every_n_days => calculate_every_n_days_occurrence start_date now recurrence_interval
      | .weekly => calculate_weekly_occurrence start_date now recurrence_days
      | .none => start_date

/-- date_utils.calculate_next_due_date; recurrence_interval = 0 models a
falsy (None or 0) stored interval. -/
def calculate_next_due_date (recurrence_type : RecurrenceType) (from_date : Int)
    (recurrence_interval : Int) (recurrence_days : Option (List Int)) : Option Int :=
  match recurrence_type with
  | .none => Option.none
  | .daily => some (from_date + 1)
  | .every_n_days =>
    let interval := pymax 1 (if recurrence_interval == 0 then 1 else recurrence_interval)
    some (from_date + interval)
  | .weekly =>
    let start_dt := from_date * 1440
    some (dateOf (calculate_weekly_occurrence start_dt (start_dt + 1440) recurrence_days))

/-- One row of the tasks table (the urgency display column and fields the
verified operations never read are omitted). -/
structure TaskRow where
  id : Int
  description : String := ""
  project : Option String := none
  priority : Int := 0
  energy : Int := 0
  is_habit : Bool := false
  is_today : Bool := false
  status : String := "pending"
  due_date : Option Int := none
  recurrence_type : RecurrenceType := .none
  recurrence_interval : Int := 0
  recurrence_days : Option (List Int) := none
  habit_type : Option String := none
  streak : Int := 0
  last_completed_date : Option Int := none
  daily_target : Int := 1
  daily_completed : Int := 0
  deriving Repr, DecidableEq

abbrev TaskStore := List TaskRow

/-- TaskRepository.get_by_id (a None id finds nothing). -/
def get_task_by_id (ts : TaskStore) (tid : Option Int) : Option TaskRow :=
  match tid with
  | Option.none => Option.none
  | some i => ts.find? (fun t => t.id == i)

/-- The primary key the database would give a newly inserted row. -/
def fresh_task_id (ts : TaskStore) : Int :=
  1 + ts.foldl (fun m t => pymax m t.id) 0

/-- TaskService._create_next_habit_occurrence: the successor row; a habit
whose status is not completed is missed and restarts with streak 0. -/
def create_next_habit_occurrence (ts : TaskStore) (habit : TaskRow) (next_due : Int) : TaskRow :=
  { id := fresh_task_id ts,
    description := habit.description,
    project := habit.project,
    priority := habit.priority,
    energy := habit.energy,
    is_habit := true,
    is_today := false,
    status := "pending",
    due_date := some (next_due * 1440),
    recurrence_type := habit.recurrence_type,
    recurrence_interval := habit.recurrence_interval,
    recurrence_days := habit.recurrence_days,
    habit_type := habit.habit_type,
    streak := if habit.status != "completed" then 0 else habit.streak,
    last_completed_date := habit.last_completed_date,
    daily_target := if habit.daily_target == 0 then 1 else habit.daily_target,
    daily_completed := 0 }

/-- TaskService.roll_forward_missed_habit: fetch the habit by id, compute
its next due date, insert the successor row and delete the original. -/
def roll_forward_missed_habit (ts : TaskStore) (habit_id : Option Int)
    (from_date : Int) : TaskStore :=
  match get_task_by_id ts habit_id with
  | Option.none => ts
  | some habit =>
    if !habit.is_habit then ts
    else if habit.recurrence_type == RecurrenceType.none then ts
    else
      let current_due := match habit.due_date with
        | some dt => dateOf dt
        | Option.none => from_date
      match calculate_next_due_date habit.recurrence_type current_due
          habit.recurrence_interval habit.recurrence_days with
      | some next_due =>
        (ts ++ [create_next_habit_occurrence ts habit next_due]).filter
          (fun t => t.id != habit.id)
      | Option.none => ts.filter (fun t => t.id != habit.id)

theorem get_by_date_date (L : Ledger) (d : Int) (r : PointHistory)
    (h : get_by_date L d = some r) : r.date = d := by
  have := List.find?_some h
  simpa using this

theorem get_by_date_map_fix (L : Ledger) (f : PointHistory → PointHistory) (d : Int)
    (hdate : ∀ x, (f x).date = x.date) (hfix : ∀ x, x.date = d → f x = x) :
    get_by_date (L.map f) d = get_by_date L d := by
  induction L with
  | nil => rfl
  | cons a l ih =>
    simp only [List.map_cons, get_by_date]
    by_cases hx : a.date = d
    · rw [hfix a hx]
      rw [List.find?_cons_of_pos _ (by simpa using hx),
          List.find?_cons_of_pos _ (by simpa using hx)]
    · rw [List.find?_cons_of_neg _ (by simp [hdate a, hx]),
          List.find?_cons_of_neg _ (by simpa using hx)]
      exact ih

theorem get_by_date_update (L : Ledger) (h : PointHistory) (d : Int)
    (hd : h.date = d) (hs : (get_by_date L d).isSome) :
    get_by_date (update_record L h) d = some h := by
  induction L with
  | nil => simp [get_by_date] at hs
  | cons a l ih =>
    simp only [update_record, List.map_cons, get_by_date]
    by_cases hx : a.date = d
    · have hcond : (a.date == h.date) = true := by rw [hd, hx]; exact beq_self_eq_true d
      rw [hcond]
      simp only [if_true]
      rw [List.find?_cons_of_pos _ (by simpa using hd)]
    · have hcond : (a.date == h.date) = false := by rw [hd]; exact beq_false_of_ne hx
      rw [hcond]
      simp only [Bool.false_eq_true, if_false]
      rw [List.find?_cons_of_neg _ (by simpa using hx)]
      have hs2 : (get_by_date l d).isSome := by
        simp only [get_by_date] at hs
        rw [List.find?_cons_of_neg _ (by simpa using hx)] at hs
        exact hs
      exact ih hs2

theorem get_by_date_append_single (L : Ledger) (h : PointHistory) (d : Int)
    (hn : get_by_date L d = none) (hd : h.date = d) :
    get_by_date (L ++ [h]) d = some h := by
  simp only [get_by_date] at hn ⊢
  rw [List.find?_append, hn]
  simp [hd]

theorem get_most_recent_mem (L : Ledger) (d : Int) (r : PointHistory)
    (h : get_most_recent L d = some r) : r ∈ L := by
  have main : ∀ (l : List PointHistory) (acc : Option PointHistory),
      l.foldl (fun acc h => match acc with
        | none => some h
        | some a => if a.date < h.date then some h else some a) acc = some r →
      acc = some r ∨ r ∈ l := by
    intro l
    induction l with
    | nil => intro acc hf; left; exact hf
    | cons a l ih =>
      intro acc hf
      simp only [List.foldl_cons] at hf
      rcases ih _ hf with h1 | h1
      · match acc with
        | none =>
          simp only at h1
          right
          rw [Option.some_inj] at h1
          rw [← h1]
          exact List.mem_cons_self a l
        | some b =>
          simp only at h1
          split at h1
          · right
            rw [Option.some_inj] at h1
            rw [← h1]
            exact List.mem_cons_self a l
          · left; exact h1
      · right; exact List.mem_cons_of_mem a h1
  have := main (L.filter (fun h => h.date < d)) none h
  rcases this with h1 | h1
  · exact absurd h1 (by simp)
  · exact List.mem_of_mem_filter h1

/-- Every stored row has a nonnegative running balance. -/
def nonneg_ledger (L : Ledger) : Prop := ∀ r ∈ L, 0 ≤ r.cumulative_total

instance (L : Ledger) : Decidable (nonneg_ledger L) := by
  unfold nonneg_ledger
  infer_instance

theorem zero_le_pymax_zero (x : Int) : 0 ≤ pymax 0 x := by
  simp only [pymax]; split <;> omega

theorem nonneg_update_record (L : Ledger) (h : PointHistory)
    (hL : nonneg_ledger L) (hh : 0 ≤ h.cumulative_total) :
    nonneg_ledger (update_record L h) := by
  intro r hr
  simp only [update_record, List.mem_map] at hr
  obtain ⟨a, ha, hfa⟩ := hr
  by_cases hc : (a.date == h.date) = true
  · rw [if_pos hc] at hfa; rw [← hfa]; exact hh
  · rw [if_neg hc] at hfa; rw [← hfa]; exact hL a ha

theorem nonneg_append_single (L : Ledger) (h : PointHistory)
    (hL : nonneg_ledger L) (hh : 0 ≤ h.cumulative_total) :
    nonneg_ledger (L ++ [h]) := by
  intro r hr
  rcases List.mem_append.mp hr with h1 | h1
  · exact hL r h1
  · simp only [List.mem_singleton] at h1
    rw [h1]; exact hh

theorem nonneg_penalty_propagate (L : Ledger) (d delta : Int)
    (hL : nonneg_ledger L) :
    nonneg_ledger (penalty_propagate_cumulative_change L d delta) := by
  intro r hr
  simp only [penalty_propagate_cumulative_change, List.mem_map] at hr
  obtain ⟨a, ha, hfa⟩ := hr
  by_cases hc : d < a.date
  · rw [if_pos hc] at hfa; rw [← hfa]; exact zero_le_pymax_zero _
  · rw [if_neg hc] at hfa; rw [← hfa]; exact hL a ha

theorem apply_final_penalties_snd (L : Ledger) (h : PointHistory) (pen : Int) :
    (apply_final_penalties L h pen).2 =
      { h with points_penalty := pen,
               daily_total := h.points_earned + h.points_bonus - pen,
               cumulative_total := pymax 0 (h.cumulative_total + (h.points_bonus - pen)) } := by
  simp only [apply_final_penalties]
  split <;> rfl

theorem apply_final_penalties_fst_lookup (L : Ledger) (h : PointHistory) (pen : Int)
    (d : Int) (hd : h.date = d) (hs : (get_by_date L d).isSome) :
    get_by_date (apply_final_penalties L h pen).1 d =
      some (apply_final_penalties L h pen).2 := by
  simp only [apply_final_penalties, penalty_propagate_cumulative_change]
  split
  · rw [get_by_date_map_fix]
    · exact get_by_date_update L _ d hd hs
    · intro x; split <;> rfl
    · intro x hx
      have hxx : ¬ ((PointHistory.date h) < x.date) := by
        rw [hx]
        simp only [hd]
        omega
      rw [if_neg hxx]
  · exact get_by_date_update L _ d hd hs

theorem nonneg_apply_final_penalties (L : Ledger) (h : PointHistory) (pen : Int)
    (hL : nonneg_ledger L) :
    nonneg_ledger (apply_final_penalties L h pen).1 := by
  simp only [apply_final_penalties]
  split
  · exact nonneg_penalty_propagate _ _ _
      (nonneg_update_record L _ hL (zero_le_pymax_zero _))
  · exact nonneg_update_record L _ hL (zero_le_pymax_zero _)

/-- The stored penalty breakdown of a row, when present. -/
def breakdown_of (h : PointHistory) : Option PenaltyBreakdown :=
  h.details.bind (fun d => d.penalty_breakdown)

theorem save_penalty_breakdown_snd (L : Ledger) (h : PointHistory)
    (idle incomplete habits : Int) (mult : Rat) (total : Int)
    (missed : List MissedHabitDetail) (incompleteTasks : List IncompleteTaskDetail) :
    (save_penalty_breakdown L h idle incomplete habits mult total missed incompleteTasks).2.date = h.date ∧
    (save_penalty_breakdown L h idle incomplete habits mult total missed incompleteTasks).2.points_penalty = h.points_penalty ∧
    (save_penalty_breakdown L h idle incomplete habits mult total missed incompleteTasks).2.completion_rate = h.completion_rate ∧
    (save_penalty_breakdown L h idle incomplete habits mult total missed incompleteTasks).2.tasks_completed = h.tasks_completed ∧
    (save_penalty_breakdown L h idle incomplete habits mult total missed incompleteTasks).2.tasks_planned = h.tasks_planned ∧
    (save_penalty_breakdown L h idle incomplete habits mult total missed incompleteTasks).2.cumulative_total = h.cumulative_total ∧
    is_day_finalized (save_penalty_breakdown L h idle incomplete habits mult total missed incompleteTasks).2 = true ∧
    breakdown_of (save_penalty_breakdown L h idle incomplete habits mult total missed incompleteTasks).2 =
      some { idle_penalty := idle, incomplete_penalty := incomplete,
             missed_habits_penalty := habits, progressive_multiplier := mult,
             penalty_streak := h.penalty_streak, total_penalty := total,
             missed_habits := missed, incomplete_tasks := incompleteTasks,
             auto_finalized := false } :=
  ⟨rfl, rfl, rfl, rfl, rfl, rfl, rfl, rfl⟩

theorem save_penalty_breakdown_fst_lookup (L : Ledger) (h : PointHistory)
    (idle incomplete habits : Int) (mult : Rat) (total : Int)
    (missed : List MissedHabitDetail) (incompleteTasks : List IncompleteTaskDetail)
    (d : Int) (hd : h.date = d) (hs : (get_by_date L d).isSome) :
    get_by_date (save_penalty_breakdown L h idle incomplete habits mult total
        missed incompleteTasks).1 d =
      some (save_penalty_breakdown L h idle incomplete habits mult total
        missed incompleteTasks).2 := by
  exact get_by_date_update L _ d hd hs

theorem nonneg_save_penalty_breakdown (L : Ledger) (h : PointHistory)
    (idle incomplete habits : Int) (mult : Rat) (total : Int)
    (missed : List MissedHabitDetail) (incompleteTasks : List IncompleteTaskDetail)
    (hL : nonneg_ledger L) (hh : 0 ≤ h.cumulative_total) :
    nonneg_ledger (save_penalty_breakdown L h idle incomplete habits mult total
      missed incompleteTasks).1 := by
  exact nonneg_update_record L _ hL hh

theorem update_completion_counts_date (h : PointHistory) (a b : Int) :
    (update_completion_counts h a b).date = h.date := rfl

theorem calculate_incomplete_penalty_pres (h : PointHistory) (s : SettingsData) :
    (calculate_incomplete_penalty h s).1.date = h.date ∧
    (calculate_incomplete_penalty h s).1.points_penalty = h.points_penalty ∧
    (calculate_incomplete_penalty h s).1.points_earned = h.points_earned ∧
    (calculate_incomplete_penalty h s).1.points_bonus = h.points_bonus ∧
    (calculate_incomplete_penalty h s).1.cumulative_total = h.cumulative_total ∧
    (calculate_incomplete_penalty h s).1.tasks_completed = h.tasks_completed ∧
    (calculate_incomplete_penalty h s).1.tasks_planned = h.tasks_planned ∧
    (calculate_incomplete_penalty h s).1.details = h.details := by
  simp only [calculate_incomplete_penalty]
  split
  · exact ⟨rfl, rfl, rfl, rfl, rfl, rfl, rfl, rfl⟩
  · split
    · split
      · exact ⟨rfl, rfl, rfl, rfl, rfl, rfl, rfl, rfl⟩
      · exact ⟨rfl, rfl, rfl, rfl, rfl, rfl, rfl, rfl⟩
    · split
      · exact ⟨rfl, rfl, rfl, rfl, rfl, rfl, rfl, rfl⟩
      · exact ⟨rfl, rfl, rfl, rfl, rfl, rfl, rfl, rfl⟩

theorem apply_consistency_bonus_pres (h : PointHistory) (s : SettingsData) :
    (apply_consistency_bonus h s).date = h.date ∧
    (apply_consistency_bonus h s).points_penalty = h.points_penalty ∧
    (apply_consistency_bonus h s).completion_rate = h.completion_rate ∧
    (apply_consistency_bonus h s).cumulative_total = h.cumulative_total ∧
    (apply_consistency_bonus h s).tasks_completed = h.tasks_completed ∧
    (apply_consistency_bonus h s).tasks_planned = h.tasks_planned := by
  simp only [apply_consistency_bonus]
  split
  · exact ⟨rfl, rfl, rfl, rfl, rfl, rfl⟩
  · split
    · exact ⟨rfl, rfl, rfl, rfl, rfl, rfl⟩
    · split
      · exact ⟨rfl, rfl, rfl, rfl, rfl, rfl⟩
      · exact ⟨rfl, rfl, rfl, rfl, rfl, rfl⟩

theorem apply_progressive_multiplier_pres (L : Ledger) (pen : Int) (d : Int)
    (h : PointHistory) (s : SettingsData) :
    (apply_progressive_multiplier L pen d h s).1.date = h.date ∧
    (apply_progressive_multiplier L pen d h s).1.points_penalty = h.points_penalty ∧
    (apply_progressive_multiplier L pen d h s).1.completion_rate = h.completion_rate ∧
    (apply_progressive_multiplier L pen d h s).1.cumulative_total = h.cumulative_total ∧
    (apply_progressive_multiplier L pen d h s).1.tasks_completed = h.tasks_completed ∧
    (apply_progressive_multiplier L pen d h s).1.tasks_planned = h.tasks_planned ∧
    (apply_progressive_multiplier L pen d h s).1.points_earned = h.points_earned ∧
    (apply_progressive_multiplier L pen d h s).1.points_bonus = h.points_bonus := by
  simp only [apply_progressive_multiplier]
  split
  · exact ⟨rfl, rfl, rfl, rfl, rfl, rfl, rfl, rfl⟩
  · split
    · exact ⟨rfl, rfl, rfl, rfl, rfl, rfl, rfl, rfl⟩
    · split
      · exact ⟨rfl, rfl, rfl, rfl, rfl, rfl, rfl, rfl⟩
      · exact ⟨rfl, rfl, rfl, rfl, rfl, rfl, rfl, rfl⟩

/-- The row stored for the target date by the main finalize path. -/
def finalize_main_record (L : Ledger) (target_date : Int) (h0 : PointHistory)
    (actual_tasks actual_habits : Int) (missed_habits : List HabitInfo)
    (s : SettingsData) : PointHistory :=
  let h1 := update_completion_counts h0 actual_tasks actual_habits
  let idle := calculate_idle_penalty h1 s
  let inc := calculate_incomplete_penalty h1 s
  let h2 := inc.1
  let incomplete_pen := inc.2.1
  let incomplete_tasks := inc.2.2.2
  let h3 := apply_consistency_bonus h2 s
  let mhp := calculate_missed_habits_penalty s missed_habits
  let missed_details := mhp.1
  let habits_pen := mhp.2
  let pm := apply_progressive_multiplier L (idle + incomplete_pen + habits_pen) target_date h3 s
  let h4 := pm.1
  let pen := pm.2.1
  let mult := pm.2.2
  let fin := apply_final_penalties L h4 pen
  let sav := save_penalty_breakdown fin.1 fin.2 idle incomplete_pen habits_pen mult pen
      missed_details incomplete_tasks
  sav.2

theorem pipeline_h4_date (L : Ledger) (pen0 target_date : Int) (h0 : PointHistory)
    (aT aH : Int) (s : SettingsData) :
    (apply_progressive_multiplier L pen0 target_date
      (apply_consistency_bonus (calculate_incomplete_penalty
        (update_completion_counts h0 aT aH) s).1 s) s).1.date = h0.date := by
  rw [(apply_progressive_multiplier_pres _ _ _ _ _).1,
      (apply_consistency_bonus_pres _ _).1,
      (calculate_incomplete_penalty_pres _ _).1]
  rfl

theorem fin_then_save_lookup (L : Ledger) (target_date : Int) (h4 : PointHistory)
    (pen idle incPen habPen : Int) (mult : Rat)
    (md : List MissedHabitDetail) (idet : List IncompleteTaskDetail)
    (hd : h4.date = target_date) (hs : (get_by_date L target_date).isSome) :
    get_by_date (save_penalty_breakdown (apply_final_penalties L h4 pen).1
        (apply_final_penalties L h4 pen).2 idle incPen habPen mult pen md idet).1 target_date =
      some (save_penalty_breakdown (apply_final_penalties L h4 pen).1
        (apply_final_penalties L h4 pen).2 idle incPen habPen mult pen md idet).2 := by
  apply save_penalty_breakdown_fst_lookup
  · rw [apply_final_penalties_snd]
    exact hd
  · rw [apply_final_penalties_fst_lookup L h4 pen target_date hd hs]
    rfl

theorem finalize_main_lookup (L : Ledger) (target_date : Int) (h0 : PointHistory)
    (aT aH : Int) (mh : List HabitInfo) (s : SettingsData)
    (hlook : get_by_date L target_date = some h0) :
    get_by_date (finalize_main L target_date h0 aT aH mh s).1 target_date =
      some (finalize_main_record L target_date h0 aT aH mh s) := by
  have hd0 : h0.date = target_date := get_by_date_date L target_date h0 hlook
  have hs : (get_by_date L target_date).isSome := by rw [hlook]; rfl
  simp only [finalize_main, finalize_main_record]
  exact fin_then_save_lookup _ _ _ _ _ _ _ _ _ _
    (by rw [pipeline_h4_date]; exact hd0) hs

theorem finalize_main_record_finalized (L : Ledger) (target_date : Int) (h0 : PointHistory)
    (aT aH : Int) (mh : List HabitInfo) (s : SettingsData) :
    is_day_finalized (finalize_main_record L target_date h0 aT aH mh s) = true := rfl

theorem finalize_main_record_penalty (L : Ledger) (target_date : Int) (h0 : PointHistory)
    (aT aH : Int) (mh : List HabitInfo) (s : SettingsData) :
    (finalize_main_record L target_date h0 aT aH mh s).points_penalty =
      (finalize_main L target_date h0 aT aH mh s).2.1.penalty := by
  simp only [finalize_main_record, finalize_main, save_penalty_breakdown,
             apply_final_penalties]
  split <;> rfl

theorem finalize_main_record_fields (L : Ledger) (target_date : Int) (h0 : PointHistory)
    (aT aH : Int) (mh : List HabitInfo) (s : SettingsData) :
    (finalize_main_record L target_date h0 aT aH mh s).completion_rate =
      (finalize_main L target_date h0 aT aH mh s).2.1.completion_rate ∧
    (finalize_main_record L target_date h0 aT aH mh s).tasks_completed =
      (finalize_main L target_date h0 aT aH mh s).2.1.tasks_completed ∧
    (finalize_main_record L target_date h0 aT aH mh s).tasks_planned =
      (finalize_main L target_date h0 aT aH mh s).2.1.tasks_planned := by
  exact ⟨rfl, rfl, rfl⟩

theorem finalize_main_rolled (L : Ledger) (target_date : Int) (h0 : PointHistory)
    (aT aH : Int) (mh : List HabitInfo) (s : SettingsData) :
    (finalize_main L target_date h0 aT aH mh s).2.2 = [] := rfl

theorem finalize_main_record_breakdown (L : Ledger) (target_date : Int) (h0 : PointHistory)
    (aT aH : Int) (mh : List HabitInfo) (s : SettingsData) :
    ∃ bd, breakdown_of (finalize_main_record L target_date h0 aT aH mh s) = some bd ∧
      bd.missed_habits_penalty = (calculate_missed_habits_penalty s mh).2 ∧
      bd.missed_habits = (calculate_missed_habits_penalty s mh).1 := by
  exact ⟨_, rfl, rfl, rfl⟩

theorem nonneg_finalize_main (L : Ledger) (target_date : Int) (h0 : PointHistory)
    (aT aH : Int) (mh : List HabitInfo) (s : SettingsData)
    (hL : nonneg_ledger L) :
    nonneg_ledger (finalize_main L target_date h0 aT aH mh s).1 := by
  simp only [finalize_main]
  apply nonneg_save_penalty_breakdown
  · exact nonneg_apply_final_penalties _ _ _ hL
  · rw [apply_final_penalties_snd]
    exact zero_le_pymax_zero _

theorem handle_no_history_due_zero (L : Ledger) (target_date : Int) (s : SettingsData)
    (mh : List HabitInfo) :
    handle_no_history L target_date s mh 0 = (L, no_history_result, []) := rfl

/-- The row written by the no-history finalize path (habits were due). -/
def no_history_record (L : Ledger) (target_date : Int) (s : SettingsData)
    (mh : List HabitInfo) : PointHistory :=
  let previous_cumulative := (get_most_recent L target_date).elim 0 (fun p => p.cumulative_total)
  let h0 : PointHistory := { date := target_date, cumulative_total := previous_cumulative }
  let L := L ++ [h0]
  let idle := s.idle_penalty
  let missed_details := mh.map (missed_habit_detail s)
  let habits_pen := (mh.map (habit_penalty_amount s)).sum
  let base_pen := idle + habits_pen
  let yesterday_streak := get_effective_penalty_streak L (target_date - 1)
  let streak := if 0 < yesterday_streak then yesterday_streak + 1 else 1
  let mult := 1 + pymin ((streak : Rat) * s.progressive_penalty_factor)
                        (s.progressive_penalty_max - 1)
  let total := pyInt ((base_pen : Rat) * mult)
  let bd : PenaltyBreakdown :=
    { idle_penalty := idle, incomplete_penalty := 0,
      missed_habits_penalty := habits_pen,
      progressive_multiplier := mult, penalty_streak := streak,
      total_penalty := total, missed_habits := missed_details,
      incomplete_tasks := [], auto_finalized := true }
  let newDetails : Details :=
    { task_completions := [], planned_tasks := [], penalty_breakdown := some bd }
  { h0 with penalty_streak := streak, points_penalty := total,
            daily_total := -total,
            cumulative_total := pymax 0 (previous_cumulative - total),
            details := some newDetails }

theorem lookup_update_then_maybe_propagate (L : Ledger) (h : PointHistory) (d δ : Int)
    (c : Prop) [Decidable c] (hd : h.date = d) (hs : (get_by_date L d).isSome) :
    get_by_date (if c then penalty_propagate_cumulative_change (update_record L h) d δ
                 else update_record L h) d = some h := by
  split
  · simp only [penalty_propagate_cumulative_change]
    rw [get_by_date_map_fix]
    · exact get_by_date_update L h d hd hs
    · intro x; split <;> rfl
    · intro x hx
      have hxx : ¬ (d < x.date) := by rw [hx]; omega
      rw [if_neg hxx]
  · exact get_by_date_update L h d hd hs

theorem handle_no_history_post (L : Ledger) (target_date : Int) (s : SettingsData)
    (mh : List HabitInfo) (due : Int)
    (hn : get_by_date L target_date = none) (hdue : (due == 0) = false) :
    get_by_date (handle_no_history L target_date s mh due).1 target_date =
      some (no_history_record L target_date s mh) ∧
    (handle_no_history L target_date s mh due).2.2 = mh ∧
    is_day_finalized (no_history_record L target_date s mh) = true ∧
    (no_history_record L target_date s mh).points_penalty =
      (handle_no_history L target_date s mh due).2.1.penalty ∧
    (no_history_record L target_date s mh).completion_rate = 0 ∧
    (no_history_record L target_date s mh).tasks_completed = 0 ∧
    (no_history_record L target_date s mh).tasks_planned = 0 ∧
    (handle_no_history L target_date s mh due).2.1.completion_rate = 0 ∧
    (handle_no_history L target_date s mh due).2.1.tasks_completed = 0 ∧
    (handle_no_history L target_date s mh due).2.1.tasks_planned = 0 ∧
    (∃ bd, breakdown_of (no_history_record L target_date s mh) = some bd ∧
       bd.missed_habits_penalty = (mh.map (habit_penalty_amount s)).sum ∧
       bd.missed_habits = mh.map (missed_habit_detail s)) := by
  refine ⟨?_, ?_, rfl, ?_, rfl, rfl, rfl, ?_, ?_, ?_, ⟨_, rfl, rfl, rfl⟩⟩
  · simp only [handle_no_history, no_history_record, hdue, Bool.false_eq_true, if_false]
    refine lookup_update_then_maybe_propagate _ _ _ _ _ rfl ?_
    rw [get_by_date_append_single L _ target_date hn rfl]
    rfl
  · simp only [handle_no_history, hdue, Bool.false_eq_true, if_false]
  · simp only [handle_no_history, no_history_record, hdue, Bool.false_eq_true, if_false]
  · simp only [handle_no_history, hdue, Bool.false_eq_true, if_false]
  · simp only [handle_no_history, hdue, Bool.false_eq_true, if_false]
  · simp only [handle_no_history, hdue, Bool.false_eq_true, if_false]

theorem nonneg_handle_no_history (L : Ledger) (target_date : Int) (s : SettingsData)
    (mh : List HabitInfo) (due : Int) (hL : nonneg_ledger L) :
    nonneg_ledger (handle_no_history L target_date s mh due).1 := by
  simp only [handle_no_history]
  split
  · exact hL
  · have hprev : 0 ≤ (get_most_recent L target_date).elim 0 (fun p => p.cumulative_total) := by
      cases hm : get_most_recent L target_date with
      | none => simp
      | some r =>
        simp only [Option.elim]
        exact hL r (get_most_recent_mem L target_date r hm)
    split
    all_goals split
    all_goals
      first
      | · apply nonneg_penalty_propagate
          apply nonneg_update_record
          · exact nonneg_append_single L _ hL hprev
          · exact zero_le_pymax_zero _
      | · apply nonneg_update_record
          · exact nonneg_append_single L _ hL hprev
          · exact zero_le_pymax_zero _

/-- The result returned for a date whose row is already finalized. -/
def already_finalized_result (h : PointHistory) : FinalizeResult :=
  { penalty := h.points_penalty, completion_rate := h.completion_rate,
    tasks_completed := h.tasks_completed, tasks_planned := h.tasks_planned,
    missed_habits := 0, already_finalized := some true }

theorem finalize_already (L : Ledger) (target_date : Int) (aT aH : Int)
    (mh : List HabitInfo) (due : Int) (s : SettingsData) (hf : PointHistory)
    (hlook : get_by_date L target_date = some hf) (hfin : is_day_finalized hf = true) :
    finalize_day_penalties L target_date false aT aH mh due s =
      (L, already_finalized_result hf, []) := by
  simp only [finalize_day_penalties, Bool.false_eq_true, if_false, hlook, hfin,
             Bool.or_true, if_true, already_finalized_result]

/-- C1: finalize is idempotent on the stored state: a repeat call changes no
row and rolls no habit forward, and agrees with the first call on penalty,
completion_rate, tasks_completed and tasks_planned (the full return dict can
still differ, see the counterexample). -/
theorem finalize_repeat_stable (L : Ledger) (target_date : Int) (is_rest : Bool)
    (aT aH due : Int) (mh : List HabitInfo) (s : SettingsData) :
    (finalize_day_penalties (finalize_day_penalties L target_date is_rest aT aH mh due s).1
        target_date is_rest aT aH mh due s).1 =
      (finalize_day_penalties L target_date is_rest aT aH mh due s).1 ∧
    (finalize_day_penalties (finalize_day_penalties L target_date is_rest aT aH mh due s).1
        target_date is_rest aT aH mh due s).2.2 = [] ∧
    (finalize_day_penalties (finalize_day_penalties L target_date is_rest aT aH mh due s).1
        target_date is_rest aT aH mh due s).2.1.penalty =
      (finalize_day_penalties L target_date is_rest aT aH mh due s).2.1.penalty ∧
    (finalize_day_penalties (finalize_day_penalties L target_date is_rest aT aH mh due s).1
        target_date is_rest aT aH mh due s).2.1.completion_rate =
      (finalize_day_penalties L target_date is_rest aT aH mh due s).2.1.completion_rate ∧
    (finalize_day_penalties (finalize_day_penalties L target_date is_rest aT aH mh due s).1
        target_date is_rest aT aH mh due s).2.1.tasks_completed =
      (finalize_day_penalties L target_date is_rest aT aH mh due s).2.1.tasks_completed ∧
    (finalize_day_penalties (finalize_day_penalties L target_date is_rest aT aH mh due s).1
        target_date is_rest aT aH mh due s).2.1.tasks_planned =
      (finalize_day_penalties L target_date is_rest aT aH mh due s).2.1.tasks_planned := by
  cases is_rest with
  | true => exact ⟨rfl, rfl, rfl, rfl, rfl, rfl⟩
  | false =>
    cases hlook : get_by_date L target_date with
    | some h =>
      by_cases hg : (decide (0 < h.points_penalty) || is_day_finalized h) = true
      · have e1 : finalize_day_penalties L target_date false aT aH mh due s =
            (L, already_finalized_result h, []) := by
          simp only [finalize_day_penalties, Bool.false_eq_true, if_false, hlook, hg,
                     if_true, already_finalized_result]
        rw [e1]
        rw [e1]
        exact ⟨rfl, rfl, rfl, rfl, rfl, rfl⟩
      · have e1 : finalize_day_penalties L target_date false aT aH mh due s =
            finalize_main L target_date h aT aH mh s := by
          simp only [finalize_day_penalties, Bool.false_eq_true, if_false, hlook]
          rw [if_neg hg]
        rw [e1]
        have e2 := finalize_already (finalize_main L target_date h aT aH mh s).1
          target_date aT aH mh due s _ (finalize_main_lookup L target_date h aT aH mh s hlook)
          (finalize_main_record_finalized L target_date h aT aH mh s)
        rw [e2]
        refine ⟨rfl, rfl, ?_, ?_, ?_, ?_⟩
        · exact finalize_main_record_penalty L target_date h aT aH mh s
        · exact (finalize_main_record_fields L target_date h aT aH mh s).1
        · exact (finalize_main_record_fields L target_date h aT aH mh s).2.1
        · exact (finalize_main_record_fields L target_date h aT aH mh s).2.2
    | none =>
      by_cases hdue : (due == 0) = true
      · have e1 : finalize_day_penalties L target_date false aT aH mh due s =
            (L, no_history_result, []) := by
          simp only [finalize_day_penalties, Bool.false_eq_true, if_false, hlook,
                     handle_no_history, hdue, if_true]
        rw [e1]
        have e2 : finalize_day_penalties L target_date false aT aH mh due s =
            (L, no_history_result, []) := e1
        rw [e2]
        exact ⟨rfl, rfl, rfl, rfl, rfl, rfl⟩
      · have hdue' : (due == 0) = false := by
          cases hb : (due == 0) with
          | true => exact absurd hb hdue
          | false => rfl
        obtain ⟨hlk, _, hfin, hpen, hcr, htc, htp, hrcr, hrtc, hrtp, _⟩ :=
          handle_no_history_post L target_date s mh due hlook hdue'
        have e1 : finalize_day_penalties L target_date false aT aH mh due s =
            handle_no_history L target_date s mh due := by
          simp only [finalize_day_penalties, Bool.false_eq_true, if_false, hlook]
        rw [e1]
        have e2 := finalize_already (handle_no_history L target_date s mh due).1
          target_date aT aH mh due s _ hlk hfin
        rw [e2]
        refine ⟨rfl, rfl, ?_, ?_, ?_, ?_⟩
        · exact hpen
        · show (no_history_record L target_date s mh).completion_rate =
            (handle_no_history L target_date s mh due).2.1.completion_rate
          rw [hcr, hrcr]
        · show (no_history_record L target_date s mh).tasks_completed =
            (handle_no_history L target_date s mh due).2.1.tasks_completed
          rw [htc, hrtc]
        · show (no_history_record L target_date s mh).tasks_planned =
            (handle_no_history L target_date s mh due).2.1.tasks_planned
          rw [htp, hrtp]

theorem pymax_zero_of_nonneg (x : Int) (hx : 0 ≤ x) : pymax 0 x = x := by
  simp only [pymax]; split <;> omega

theorem mem_update_record_of_ne (L : Ledger) (h : PointHistory) (r : PointHistory)
    (hr : r ∈ L) (hne : r.date ≠ h.date) : r ∈ update_record L h := by
  simp only [update_record]
  refine List.mem_map.mpr ⟨r, hr, ?_⟩
  show (if (r.date == h.date) = true then h else r) = r
  rw [if_neg]
  simp [hne]

theorem mem_update_record_self (L : Ledger) (h : PointHistory) (x : PointHistory)
    (hx : x ∈ L) (hdate : x.date = h.date) : h ∈ update_record L h := by
  simp only [update_record]
  refine List.mem_map.mpr ⟨x, hx, ?_⟩
  show (if (x.date == h.date) = true then h else x) = h
  rw [if_pos]
  simp [hdate]

theorem mem_propagate_later (L : Ledger) (from_date delta : Int) (r : PointHistory)
    (hr : r ∈ L) (hlt : from_date < r.date) :
    ({ r with cumulative_total := pymax 0 (r.cumulative_total + delta) } : PointHistory) ∈
      penalty_propagate_cumulative_change L from_date delta := by
  simp only [penalty_propagate_cumulative_change]
  refine List.mem_map.mpr ⟨r, hr, ?_⟩
  show (if from_date < r.date then
      ({ r with cumulative_total := pymax 0 (r.cumulative_total + delta) } : PointHistory)
      else r) =
    ({ r with cumulative_total := pymax 0 (r.cumulative_total + delta) } : PointHistory)
  rw [if_pos hlt]

theorem mem_propagate_early (L : Ledger) (from_date delta : Int) (r : PointHistory)
    (hr : r ∈ L) (hge : ¬ from_date < r.date) :
    r ∈ penalty_propagate_cumulative_change L from_date delta := by
  simp only [penalty_propagate_cumulative_change]
  refine List.mem_map.mpr ⟨r, hr, ?_⟩
  show (if from_date < r.date then
      ({ r with cumulative_total := pymax 0 (r.cumulative_total + delta) } : PointHistory)
      else r) = r
  rw [if_neg hge]

theorem get_by_date_mem (L : Ledger) (d : Int) (r : PointHistory)
    (h : get_by_date L d = some r) : r ∈ L :=
  List.mem_of_find?_eq_some h

/-- C2 (amended): a retroactive net change on date d clamps d's own row at
zero and then shifts every later row by the clamped delta, but each later
row is itself clamped at zero as well; the shift equals the delta exactly
only when the later row stays nonnegative.  Rows before d are untouched. -/
theorem apply_net_change_propagation (L : Ledger) (d pen : Int) (h : PointHistory)
    (hlook : get_by_date L d = some h)
    (hnet : h.points_bonus - pen ≠ 0) :
    (∀ r ∈ L, d < r.date →
       ∃ rr ∈ (apply_final_penalties L h pen).1, rr.date = r.date ∧
         rr.cumulative_total = pymax 0 (r.cumulative_total +
           (pymax 0 (h.cumulative_total + (h.points_bonus - pen)) - h.cumulative_total)) ∧
         (0 ≤ r.cumulative_total +
             (pymax 0 (h.cumulative_total + (h.points_bonus - pen)) - h.cumulative_total) →
           rr.cumulative_total = r.cumulative_total +
             (pymax 0 (h.cumulative_total + (h.points_bonus - pen)) - h.cumulative_total))) ∧
    (∃ rd ∈ (apply_final_penalties L h pen).1, rd.date = d ∧
       rd.cumulative_total = pymax 0 (h.cumulative_total + (h.points_bonus - pen))) ∧
    (∀ r ∈ L, r.date < d → r ∈ (apply_final_penalties L h pen).1) := by
  have hd : h.date = d := get_by_date_date L d h hlook
  have hmem : h ∈ L := get_by_date_mem L d h hlook
  simp only [apply_final_penalties]
  rw [if_pos hnet]
  refine ⟨?_, ?_, ?_⟩
  · intro r hr hlt
    refine ⟨{ r with cumulative_total := pymax 0 (r.cumulative_total +
        (pymax 0 (h.cumulative_total + (h.points_bonus - pen)) - h.cumulative_total)) },
      ?_, rfl, rfl, ?_⟩
    · exact mem_propagate_later _ _ _ _
        (mem_update_record_of_ne _ _ _ hr (by show r.date ≠ h.date; omega))
        (by show h.date < r.date; omega)
    · intro hge
      exact pymax_zero_of_nonneg _ hge
  · refine ⟨_, mem_propagate_early _ _ _ _
        (mem_update_record_self _ _ h hmem rfl)
        (by show ¬ h.date < h.date; omega), ?_, ?_⟩
    · exact hd
    · rfl
  · intro r hr hlt
    exact mem_propagate_early _ _ _ _
      (mem_update_record_of_ne _ _ _ hr (by show r.date ≠ h.date; omega))
      (by show ¬ h.date < r.date; omega)

theorem nonneg_finalize_day_penalties (L : Ledger) (target_date : Int) (is_rest : Bool)
    (aT aH due : Int) (mh : List HabitInfo) (s : SettingsData) (hL : nonneg_ledger L) :
    nonneg_ledger (finalize_day_penalties L target_date is_rest aT aH mh due s).1 := by
  cases is_rest with
  | true => exact hL
  | false =>
    cases hlook : get_by_date L target_date with
    | none =>
      have e1 : finalize_day_penalties L target_date false aT aH mh due s =
          handle_no_history L target_date s mh due := by
        simp only [finalize_day_penalties, Bool.false_eq_true, if_false, hlook]
      rw [e1]
      exact nonneg_handle_no_history L target_date s mh due hL
    | some h =>
      by_cases hg : (decide (0 < h.points_penalty) || is_day_finalized h) = true
      · have e1 : finalize_day_penalties L target_date false aT aH mh due s =
            (L, already_finalized_result h, []) := by
          simp only [finalize_day_penalties, Bool.false_eq_true, if_false, hlook, hg,
                     if_true, already_finalized_result]
        rw [e1]
        exact hL
      · have e1 : finalize_day_penalties L target_date false aT aH mh due s =
            finalize_main L target_date h aT aH mh s := by
          simp only [finalize_day_penalties, Bool.false_eq_true, if_false, hlook]
          rw [if_neg hg]
        rw [e1]
        exact nonneg_finalize_main L target_date h aT aH mh s hL

theorem nonneg_get_or_create_fst (L : Ledger) (today : Int) (hL : nonneg_ledger L) :
    nonneg_ledger (get_or_create_today_history L today).1 := by
  simp only [get_or_create_today_history]
  split
  · exact hL
  · apply nonneg_append_single L _ hL
    cases hm : get_most_recent L today with
    | none => simp
    | some r => simpa using hL r (get_most_recent_mem L today r hm)

theorem nonneg_get_or_create_snd (L : Ledger) (today : Int) (hL : nonneg_ledger L) :
    0 ≤ (get_or_create_today_history L today).2.cumulative_total := by
  simp only [get_or_create_today_history]
  split
  · next h heq => exact hL h (get_by_date_mem L today h heq)
  · show 0 ≤ (get_most_recent L today).elim 0 (fun p => p.cumulative_total)
    cases hm : get_most_recent L today with
    | none => simp
    | some r => simpa using hL r (get_most_recent_mem L today r hm)

theorem nonneg_add_task_completion_points (log2fn : Int → Rat) (L : Ledger)
    (task_id energy : Int) (is_habit : Bool) (habit_type : String) (streak time_spent : Int)
    (started : Bool) (pptb pphb : Int) (emb ems : Rat) (mpe mwts : Int) (slf : Rat)
    (rpf today : Int) (descr : String)
    (hrpf : 0 ≤ rpf) (hL : nonneg_ledger L) :
    nonneg_ledger (add_task_completion_points log2fn L task_id energy is_habit habit_type
      streak time_spent started pptb pphb emb ems mpe mwts slf rpf today descr).1 := by
  cases is_habit with
  | true =>
    simp only [add_task_completion_points]
    apply nonneg_update_record
    · exact nonneg_get_or_create_fst L today hL
    · have h2 : (0 : Int) ≤ calculate_habit_points log2fn habit_type streak pphb rpf slf := by
        simp only [calculate_habit_points]
        split
        · exact hrpf
        · have := le_pymax_left (1 : Int)
            (pyInt ((pphb : Rat) * (1 + log2fn (streak + 1) * slf)))
          omega
      exact add_nonneg (nonneg_get_or_create_snd L today hL) h2
  | false =>
    simp only [add_task_completion_points]
    apply nonneg_update_record
    · exact nonneg_get_or_create_fst L today hL
    · have h2 : (0 : Int) ≤ (calculate_task_points energy time_spent started pptb
          emb ems mpe mwts).points := by
        have := le_pymax_left (1 : Int)
          (pyInt ((pptb : Rat) * (emb + (energy : Rat) * ems) *
            calculate_time_quality_factor time_spent energy mpe mwts *
            (if started then 1 else 0.8)))
        show (0 : Int) ≤ pymax 1 _
        omega
      exact add_nonneg (nonneg_get_or_create_snd L today hL) h2

theorem calculate_missed_habits_penalty_eq (s : SettingsData) (mh : List HabitInfo) :
    calculate_missed_habits_penalty s mh =
      (mh.map (missed_habit_detail s), (mh.map (habit_penalty_amount s)).sum) := by
  simp only [calculate_missed_habits_penalty]
  split
  · next hEmp =>
    cases mh with
    | nil => rfl
    | cons a l => simp [List.isEmpty] at hEmp
  · rfl

/-- C3 (amended): non-negativity of cumulative_total is preserved by every
finalize path, by crediting a completion (when the routine fixed reward
setting is nonnegative; task and skill rewards are always at least 1), and
by the clamping penalty-side propagation.  The points-side
propagate_cumulative_change, however, adds its delta without clamping and
can drive a stored row negative (see the counterexample); it has no callers
in the repository. -/
theorem ledger_core_ops_nonneg :
    (∀ (L : Ledger) (target_date : Int) (is_rest : Bool) (aT aH due : Int)
       (mh : List HabitInfo) (s : SettingsData), nonneg_ledger L →
       nonneg_ledger (finalize_day_penalties L target_date is_rest aT aH mh due s).1) ∧
    (∀ (log2fn : Int → Rat) (L : Ledger) (task_id energy : Int) (is_habit : Bool)
       (habit_type : String) (streak time_spent : Int) (started : Bool) (pptb pphb : Int)
       (emb ems : Rat) (mpe mwts : Int) (slf : Rat) (rpf today : Int) (descr : String),
       0 ≤ rpf → nonneg_ledger L →
       nonneg_ledger (add_task_completion_points log2fn L task_id energy is_habit
         habit_type streak time_spent started pptb pphb emb ems mpe mwts slf rpf
         today descr).1) ∧
    (∀ (L : Ledger) (d delta : Int), nonneg_ledger L →
       nonneg_ledger (penalty_propagate_cumulative_change L d delta)) :=
  ⟨fun L t ir aT aH due mh s hL => nonneg_finalize_day_penalties L t ir aT aH due mh s hL,
   fun lg L ti en ih ht st ts sd p1 p2 eb es mp mw sl rp td de hrpf hL =>
     nonneg_add_task_completion_points lg L ti en ih ht st ts sd p1 p2 eb es mp mw sl rp td de hrpf hL,
   fun L d delta hL => nonneg_penalty_propagate L d delta hL⟩

/-- C3 witness: the three preserved operations applied on a concrete
one-row ledger. -/
theorem ledger_core_ops_nonneg_witness :
    nonneg_ledger (finalize_day_penalties [{ date := 0 }] 0 false 0 0 [] 0 {}).1 ∧
    nonneg_ledger (add_task_completion_points (fun _ => 0) [{ date := 0 }] 1 3 false
      "skill" 0 3600 true 10 15 0.6 0.2 20 120 0.5 5 0 "t").1 ∧
    nonneg_ledger (penalty_propagate_cumulative_change [{ date := 0 }] 0 (-5)) :=
  ⟨ledger_core_ops_nonneg.1 [{ date := 0 }] 0 false 0 0 0 [] {} (by decide),
   ledger_core_ops_nonneg.2.1 (fun _ => 0) [{ date := 0 }] 1 3 false "skill" 0 3600
     true 10 15 0.6 0.2 20 120 0.5 5 0 "t" (by decide) (by decide),
   ledger_core_ops_nonneg.2.2 [{ date := 0 }] 0 (-5) (by decide)⟩

/-- C3 counterexample: the points-side propagation has no clamp, so a
negative delta pushes a later row to -5. -/
theorem points_propagate_breaks_nonneg :
    ¬ nonneg_ledger (points_propagate_cumulative_change
      [{ date := 1, cumulative_total := 5 }] 0 (-10)) := by
  decide

/-- A one-row ledger with an empty (unfinalized) row for day 0. -/
def ledger_day0 : Ledger := [{ date := 0 }]

/-- A missed skill habit as returned by get_missed_habits. -/
def habit7 : HabitInfo := { id := some 7, description := "h", habit_type := some "skill" }

/-- C1 counterexample: on an idle day with an existing row, the repeat call
returns a dict with an already_finalized key and no missed_task_potential
key, so the two return values are not equal. -/
theorem finalize_repeat_result_differs :
    (finalize_day_penalties (finalize_day_penalties ledger_day0 0 false 0 0 [] 0 {}).1
        0 false 0 0 [] 0 {}).2.1 ≠
      (finalize_day_penalties ledger_day0 0 false 0 0 [] 0 {}).2.1 := by
  with_unfolding_all decide

/-- C4 (amended): whenever finalize_day_penalties finalizes a non-rest past
date, the stored breakdown charges each due-but-incomplete habit its
per-habit amount (base for skill, int(base*0.5) otherwise, via
habit_penalty_amount); but the missed habits are passed to
roll_forward_habit only on the no-history auto-finalize path - finalizing
an existing row charges them without rolling them forward. -/
theorem missed_habit_penalty_and_roll_forward :
    (∀ (L : Ledger) (target_date aT aH due : Int) (mh : List HabitInfo)
       (s : SettingsData) (h : PointHistory),
       get_by_date L target_date = some h →
       (decide (0 < h.points_penalty) || is_day_finalized h) = false →
       (finalize_day_penalties L target_date false aT aH mh due s).2.2 = [] ∧
       ∃ hf bd, get_by_date (finalize_day_penalties L target_date false aT aH mh due s).1
           target_date = some hf ∧
         breakdown_of hf = some bd ∧
         bd.missed_habits_penalty = (mh.map (habit_penalty_amount s)).sum ∧
         bd.missed_habits = mh.map (missed_habit_detail s)) ∧
    (∀ (L : Ledger) (target_date aT aH due : Int) (mh : List HabitInfo)
       (s : SettingsData),
       get_by_date L target_date = none → (due == 0) = false →
       (finalize_day_penalties L target_date false aT aH mh due s).2.2 = mh ∧
       ∃ hf bd, get_by_date (finalize_day_penalties L target_date false aT aH mh due s).1
           target_date = some hf ∧
         breakdown_of hf = some bd ∧
         bd.missed_habits_penalty = (mh.map (habit_penalty_amount s)).sum ∧
         bd.missed_habits = mh.map (missed_habit_detail s)) := by
  constructor
  · intro L target_date aT aH due mh s h hlook hg
    have hg' : ¬ ((decide (0 < h.points_penalty) || is_day_finalized h) = true) := by
      rw [hg]; simp
    have e1 : finalize_day_penalties L target_date false aT aH mh due s =
        finalize_main L target_date h aT aH mh s := by
      simp only [finalize_day_penalties, Bool.false_eq_true, if_false, hlook]
      rw [if_neg hg']
    rw [e1]
    refine ⟨finalize_main_rolled L target_date h aT aH mh s, ?_⟩
    obtain ⟨bd, hbd, hpen, hdet⟩ := finalize_main_record_breakdown L target_date h aT aH mh s
    refine ⟨finalize_main_record L target_date h aT aH mh s, bd,
      finalize_main_lookup L target_date h aT aH mh s hlook, hbd, ?_, ?_⟩
    · rw [hpen, calculate_missed_habits_penalty_eq]
    · rw [hdet, calculate_missed_habits_penalty_eq]
  · intro L target_date aT aH due mh s hlook hdue
    have e1 : finalize_day_penalties L target_date false aT aH mh due s =
        handle_no_history L target_date s mh due := by
      simp only [finalize_day_penalties, Bool.false_eq_true, if_false, hlook]
    rw [e1]
    obtain ⟨hlk, hroll, _, _, _, _, _, _, _, _, bd, hbd, hpen, hdet⟩ :=
      handle_no_history_post L target_date s mh due hlook hdue
    exact ⟨hroll, no_history_record L target_date s mh, bd, hlk, hbd, hpen, hdet⟩

/-- C4 witness: both finalize paths at a concrete one-habit input. -/
theorem missed_habit_penalty_and_roll_forward_witness :
    ((finalize_day_penalties ledger_day0 0 false 0 0 [habit7] 1 {}).2.2 = [] ∧
     ∃ hf bd, get_by_date (finalize_day_penalties ledger_day0 0 false 0 0
         [habit7] 1 {}).1 0 = some hf ∧
       breakdown_of hf = some bd ∧
       bd.missed_habits_penalty = (([habit7] : List HabitInfo).map (habit_penalty_amount {})).sum ∧
       bd.missed_habits = ([habit7] : List HabitInfo).map (missed_habit_detail {})) ∧
    ((finalize_day_penalties [] 0 false 0 0 [habit7] 1 {}).2.2 = [habit7] ∧
     ∃ hf bd, get_by_date (finalize_day_penalties [] 0 false 0 0
         [habit7] 1 {}).1 0 = some hf ∧
       breakdown_of hf = some bd ∧
       bd.missed_habits_penalty = (([habit7] : List HabitInfo).map (habit_penalty_amount {})).sum ∧
       bd.missed_habits = ([habit7] : List HabitInfo).map (missed_habit_detail {})) :=
  ⟨missed_habit_penalty_and_roll_forward.1 ledger_day0 0 0 0 1 [habit7] {}
     { date := 0 } (by with_unfolding_all decide) (by with_unfolding_all decide),
   missed_habit_penalty_and_roll_forward.2 [] 0 0 0 1 [habit7] {}
     (by with_unfolding_all decide) (by with_unfolding_all decide)⟩

/-- C4 counterexample: with an existing unfinalized row and one missed
skill habit due, finalize penalizes the habit but rolls nothing forward. -/
theorem roll_forward_skipped_on_existing_record :
    (finalize_day_penalties ledger_day0 0 false 0 0 [habit7] 1 {}).2.2 = [] ∧
    ([habit7] : List HabitInfo) ≠ [] := by
  exact ⟨rfl, by with_unfolding_all decide⟩

/-- The four-day end-to-end streak scenario: empty rows for the four
consecutive dates D..D+3 (D is day 0), finalized in order with default
settings (idle_penalty 30, factor 0.1, cap 1.5); every day is idle and
D+2 is a rest day. -/
def streak_ledger0 : Ledger := [{ date := 0 }, { date := 1 }, { date := 2 }, { date := 3 }]

def streak_step1 : Ledger × FinalizeResult × List HabitInfo :=
  finalize_day_penalties streak_ledger0 0 false 0 0 [] 0 {}

def streak_step2 : Ledger × FinalizeResult × List HabitInfo :=
  finalize_day_penalties streak_step1.1 1 false 0 0 [] 0 {}

def streak_step3 : Ledger × FinalizeResult × List HabitInfo :=
  finalize_day_penalties streak_step2.1 2 true 0 0 [] 0 {}

def streak_step4 : Ledger × FinalizeResult × List HabitInfo :=
  finalize_day_penalties streak_step3.1 3 false 0 0 [] 0 {}

/-- C5 (amended): with idle_penalty 30, factor 0.1, cap 1.5 and no prior
streak, the code multiplies already on the first penalized day: day D gets
penalty int(30*1.1) = 33 with streak 1, D+1 gets int(30*1.2) = 36 with
streak 2, the rest day D+2 returns penalty 0 and stores nothing (its row is
untouched, streak fields unchanged), and on D+3 the streak restarts at 1
(the zero-penalty rest day breaks the walk-back), giving int(30*1.1) = 33
again. -/
theorem streak_scenario_actual :
    streak_step1.2.1.penalty = 33 ∧
    (get_by_date streak_step1.1 0).map (fun h => h.penalty_streak) = some 1 ∧
    streak_step2.2.1.penalty = 36 ∧
    (get_by_date streak_step2.1 1).map (fun h => h.penalty_streak) = some 2 ∧
    streak_step3.2.1.penalty = 0 ∧
    streak_step3.1 = streak_step2.1 ∧
    streak_step4.2.1.penalty = 33 ∧
    (get_by_date streak_step4.1 3).map (fun h => h.penalty_streak) = some 1 := by
  with_unfolding_all decide

/-- C5 counterexample: the first idle day of the scenario is charged
int(30 * 1.1) = 33, not the 30 the claim states (and D+3 ends with streak
1 and penalty 33, not streak 3 and penalty 39). -/
theorem streak_scenario_day_one_not_thirty :
    streak_step1.2.1.penalty ≠ 30 ∧
    (get_by_date streak_step4.1 3).map (fun h => h.penalty_streak) ≠ some 3 ∧
    streak_step4.2.1.penalty ≠ 39 := by
  with_unfolding_all decide

theorem effective_streak_of_pos (L : Ledger) (d : Int) (prev : PointHistory)
    (hlook : get_by_date L d = some prev) (hpos : 0 < prev.penalty_streak) :
    get_effective_penalty_streak L d = prev.penalty_streak := by
  simp only [get_effective_penalty_streak, hlook]
  rw [if_pos hpos]

theorem effective_streak_of_clean (L : Ledger) (d : Int) (prev : PointHistory)
    (hlook : get_by_date L d = some prev) (hs : prev.penalty_streak ≤ 0)
    (hp : prev.points_penalty ≤ 0) :
    get_effective_penalty_streak L d = 0 := by
  simp only [get_effective_penalty_streak, hlook]
  rw [if_neg (by omega), if_neg (by omega)]

theorem clean_count_zero_of_penalized (L : Ledger) (target : Int) (prev : PointHistory)
    (n : Nat) (hlook : get_by_date L (target - 1) = some prev)
    (hp : 0 < prev.points_penalty) :
    clean_count_loop L (n + 1) target 0 = 0 := by
  simp only [clean_count_loop, hlook]
  rw [if_pos hp]

theorem clean_count_loop_all (L : Ledger) :
    ∀ (n : Nat) (check : Int) (acc : Nat),
      (∀ i : Nat, i < n →
        ∃ r, get_by_date L (check - 1 - (i : Int)) = some r ∧ r.points_penalty ≤ 0) →
      clean_count_loop L n check acc = acc + n := by
  intro n
  induction n with
  | zero => intro check acc _; simp [clean_count_loop]
  | succ m ih =>
    intro check acc hclean
    obtain ⟨r, hr, hrp⟩ := hclean 0 (by omega)
    rw [show check - 1 - ((0 : Nat) : Int) = check - 1 by push_cast; ring] at hr
    simp only [clean_count_loop, hr]
    rw [if_neg (by omega)]
    rw [ih (check - 1) (acc + 1) ?_]
    · omega
    · intro i hi
      have h2 := hclean (i + 1) (by omega)
      rw [show check - 1 - ((i + 1 : Nat) : Int) = check - 1 - 1 - (i : Int) by
        push_cast; ring] at h2
      exact h2

/-- C6 (amended): consecutive penalized days do count 1,2,3,... ; a
zero-penalty day inherits the previous day's stored streak unless every one
of the resetDays days immediately before it carries a zero-penalty row, in
which case its stored streak becomes 0; hence a single clean day after a
penalized one keeps the streak alive, and a penalized day restarts at 1
only after a clean day whose resetDays predecessors were all clean (that
is, after resetDays + 1 consecutive clean days, not resetDays). -/
theorem penalty_streak_rules :
    (∀ (L : Ledger) (pen target : Int) (h prev : PointHistory) (s : SettingsData),
       0 < pen → get_by_date L (target - 1) = some prev → 0 < prev.penalty_streak →
       (apply_progressive_multiplier L pen target h s).1.penalty_streak =
         prev.penalty_streak + 1) ∧
    (∀ (L : Ledger) (pen target : Int) (h prev : PointHistory) (s : SettingsData),
       pen ≤ 0 → get_by_date L (target - 1) = some prev → 0 < prev.points_penalty →
       0 < s.penalty_streak_reset_days →
       (apply_progressive_multiplier L pen target h s).1.penalty_streak =
         prev.penalty_streak) ∧
    (∀ (L : Ledger) (pen target : Int) (h : PointHistory) (s : SettingsData),
       pen ≤ 0 →
       (∀ i : Nat, i < s.penalty_streak_reset_days →
          ∃ r, get_by_date L (target - 1 - (i : Int)) = some r ∧ r.points_penalty ≤ 0) →
       (apply_progressive_multiplier L pen target h s).1.penalty_streak = 0) ∧
    (∀ (L : Ledger) (pen target : Int) (h prev : PointHistory) (s : SettingsData),
       0 < pen → get_by_date L (target - 1) = some prev → prev.penalty_streak ≤ 0 →
       prev.points_penalty ≤ 0 →
       (apply_progressive_multiplier L pen target h s).1.penalty_streak = 1) := by
  refine ⟨?_, ?_, ?_, ?_⟩
  · intro L pen target h prev s hpen hlook hpos
    simp only [apply_progressive_multiplier]
    rw [if_pos hpen]
    show (if 0 < get_effective_penalty_streak L (target - 1) then
        get_effective_penalty_streak L (target - 1) + 1 else 1) = prev.penalty_streak + 1
    rw [effective_streak_of_pos L (target - 1) prev hlook hpos, if_pos hpos]
  · intro L pen target h prev s hpen hlook hp hrd
    simp only [apply_progressive_multiplier]
    rw [if_neg (by omega)]
    cases hn : s.penalty_streak_reset_days with
    | zero => omega
    | succ m =>
      rw [clean_count_zero_of_penalized L target prev m hlook hp]
      rw [if_neg (by omega)]
      simp only [hlook]
  · intro L pen target h s hpen hclean
    simp only [apply_progressive_multiplier]
    rw [if_neg (by omega)]
    rw [clean_count_loop_all L s.penalty_streak_reset_days target 0 hclean]
    rw [if_pos (by omega)]
  · intro L pen target h prev s hpen hlook hs0 hp0
    simp only [apply_progressive_multiplier]
    rw [if_pos hpen]
    show (if 0 < get_effective_penalty_streak L (target - 1) then
        get_effective_penalty_streak L (target - 1) + 1 else 1) = 1
    rw [effective_streak_of_clean L (target - 1) prev hlook hs0 hp0]
    norm_num

def c6_recA : PointHistory := { date := 0, points_penalty := 33, penalty_streak := 1 }

def c6_h1 : PointHistory := { date := 1 }

def c6_clean0 : PointHistory := { date := 0 }

def c6_clean1 : PointHistory := { date := 1 }

/-- C6 witness: the four streak rules at concrete one- and two-row
ledgers with the default resetDays = 2. -/
theorem penalty_streak_rules_witness :
    (apply_progressive_multiplier [c6_recA] 30 1 c6_h1 {}).1.penalty_streak = 2 ∧
    (apply_progressive_multiplier [c6_recA] 0 1 c6_h1 {}).1.penalty_streak = 1 ∧
    (apply_progressive_multiplier [c6_clean0, c6_clean1] 0 2 c6_h1 {}).1.penalty_streak = 0 ∧
    (apply_progressive_multiplier [c6_clean0] 30 1 c6_h1 {}).1.penalty_streak = 1 := by
  refine ⟨?_, ?_, ?_, ?_⟩
  · exact penalty_streak_rules.1 [c6_recA] 30 1 c6_h1 c6_recA {}
      (by decide) (by with_unfolding_all decide) (by decide)
  · exact (penalty_streak_rules.2.1 [c6_recA] 0 1 c6_h1 c6_recA {}
      (by decide) (by with_unfolding_all decide) (by decide) (by decide)).trans (by decide)
  · refine penalty_streak_rules.2.2.1 [c6_clean0, c6_clean1] 0 2 c6_h1 {} (by decide) ?_
    intro i hi
    interval_cases i
    · exact ⟨c6_clean1, by with_unfolding_all decide, by decide⟩
    · exact ⟨c6_clean0, by with_unfolding_all decide, by decide⟩
  · exact penalty_streak_rules.2.2.2 [c6_clean0] 30 1 c6_h1 c6_clean0 {}
      (by decide) (by with_unfolding_all decide) (by decide) (by decide)

/-- The sticky-reset scenario: day 0 idle and penalized, days 1 and 2 clean
(one task completed, nothing planned), day 3 idle again; resetDays is the
default 2. -/
def sticky_s1 : Ledger × FinalizeResult × List HabitInfo :=
  finalize_day_penalties [{ date := 0 }, { date := 1 }, { date := 2 }, { date := 3 }]
    0 false 0 0 [] 0 {}

def sticky_s2 : Ledger × FinalizeResult × List HabitInfo :=
  finalize_day_penalties sticky_s1.1 1 false 1 0 [] 0 {}

def sticky_s3 : Ledger × FinalizeResult × List HabitInfo :=
  finalize_day_penalties sticky_s2.1 2 false 1 0 [] 0 {}

def sticky_s4 : Ledger × FinalizeResult × List HabitInfo :=
  finalize_day_penalties sticky_s3.1 3 false 0 0 [] 0 {}

/-- C6 counterexample: with resetDays = 2, after exactly two consecutive
zero-penalty finalized days (days 1 and 2) the next penalized day (day 3)
gets streak 2, continuing the old streak instead of restarting at 1. -/
theorem streak_not_reset_after_reset_days :
    ({} : SettingsData).penalty_streak_reset_days = 2 ∧
    (get_by_date sticky_s2.1 1).map (fun h => (h.points_penalty, h.penalty_streak)) =
      some ((0 : Int), (1 : Int)) ∧
    (get_by_date sticky_s3.1 2).map (fun h => (h.points_penalty, h.penalty_streak)) =
      some ((0 : Int), (1 : Int)) ∧
    (get_by_date sticky_s4.1 3).map (fun h => h.penalty_streak) = some 2 ∧
    ((2 : Int) ≠ 1) := by
  with_unfolding_all decide

/-- C7: the stated instances hold (12 points when started, 9 when not) and,
for every input, the result is the floor of base times energy multiplier
times time quality times focus, floored at a minimum of 1 (the truncation
the code applies agrees with the mathematical floor under the outer max
with 1). -/
theorem task_points_formula :
    (calculate_task_points 3 3600 true 10 0.6 0.2 20 120).points = 12 ∧
    (calculate_task_points 3 3600 false 10 0.6 0.2 20 120).points = 9 ∧
    (∀ (energy time_spent : Int) (started : Bool) (base : Int) (emb ems : Rat)
       (mpe mwts : Int),
       (calculate_task_points energy time_spent started base emb ems mpe mwts).points =
         pymax 1 (Rat.floor ((base : Rat) * (emb + (energy : Rat) * ems) *
           calculate_time_quality_factor time_spent energy mpe mwts *
           (if started then 1 else 0.8)))) := by
  refine ⟨by with_unfolding_all decide, by with_unfolding_all decide, ?_⟩
  intro energy time_spent started base emb ems mpe mwts
  show pymax 1 (pyInt _) = pymax 1 (Rat.floor _)
  exact pymax_one_pyInt _

theorem dateOf_add_mul (x m : Int) : dateOf (x + m * 1440) = dateOf x + m := by
  simp only [dateOf]
  rw [Int.fdiv_eq_ediv _ (by norm_num), Int.fdiv_eq_ediv _ (by norm_num)]
  exact Int.add_mul_ediv_right x m (by norm_num)

theorem dateOf_mono (x y : Int) (h : x ≤ y) : dateOf x ≤ dateOf y := by
  simp only [dateOf]
  rw [Int.fdiv_eq_ediv _ (by norm_num), Int.fdiv_eq_ediv _ (by norm_num)]
  exact Int.ediv_le_ediv (by norm_num) h

/-- C8 (amended): for a past start and positive interval, every_n_days
advances by k intervals where k = (days between the calendar dates) //
interval + 1: the smallest positive k whose resulting calendar date is
strictly past now's calendar date.  Now's time of day is ignored, so an
occurrence on now's own date at a later time is skipped (counterexample).
The stated instances hold, with day 0 = 2026-01-25:
nextOccurrence(2026-01-25T08:00, every_n_days, interval 3) at
now = 2026-01-30T10:00 is 2026-01-31T08:00 (day 6 at 08:00), and
nextDueDate(every_n_days, 2026-01-30, interval 3) is 2026-02-02 (day 8). -/
theorem every_n_days_next_occurrence :
    (∀ (start_date now interval : Int) (rd : Option (List Int)),
       start_date < now → 0 < interval →
       calculate_next_occurrence start_date now RecurrenceType.every_n_days interval rd =
         start_date +
           (Int.fdiv (dateOf now - dateOf start_date) interval + 1) * interval * 1440 ∧
       0 < Int.fdiv (dateOf now - dateOf start_date) interval + 1 ∧
       dateOf now < dateOf (start_date +
         (Int.fdiv (dateOf now - dateOf start_date) interval + 1) * interval * 1440) ∧
       (∀ j : Int, 0 < j →
          dateOf now < dateOf (start_date + j * interval * 1440) →
          Int.fdiv (dateOf now - dateOf start_date) interval + 1 ≤ j)) ∧
    calculate_next_occurrence (mkDT 0 8 0) (mkDT 5 10 0)
      RecurrenceType.every_n_days 3 none = mkDT 6 8 0 ∧
    calculate_next_due_date RecurrenceType.every_n_days 5 3 none = some 8 := by
  refine ⟨?_, by decide, by decide⟩
  intro start_date now interval rd hlt hpos
  have hdd0 : 0 ≤ dateOf now - dateOf start_date := by
    have := dateOf_mono start_date now (le_of_lt hlt)
    omega
  have hfe : Int.fdiv (dateOf now - dateOf start_date) interval =
      (dateOf now - dateOf start_date) / interval := Int.fdiv_eq_ediv _ (by omega)
  have hmod := Int.ediv_add_emod (dateOf now - dateOf start_date) interval
  have hmodnn : 0 ≤ (dateOf now - dateOf start_date) % interval :=
    Int.emod_nonneg _ (by omega)
  have hmodlt : (dateOf now - dateOf start_date) % interval < interval :=
    Int.emod_lt_of_pos _ hpos
  refine ⟨?_, ?_, ?_, ?_⟩
  · simp only [calculate_next_occurrence, calculate_every_n_days_occurrence]
    rw [if_neg (by omega)]
  · have : 0 ≤ (dateOf now - dateOf start_date) / interval := Int.ediv_nonneg hdd0 (by omega)
    omega
  · rw [dateOf_add_mul, hfe]
    have h2 : ((dateOf now - dateOf start_date) / interval + 1) * interval =
        interval * ((dateOf now - dateOf start_date) / interval) + interval := by ring
    linarith
  · intro j hj hjd
    rw [dateOf_add_mul] at hjd
    rw [hfe]
    have hc : j * interval = interval * j := mul_comm j interval
    have h5 : interval * ((dateOf now - dateOf start_date) / interval) < interval * j := by
      linarith
    have h6 := Int.lt_of_mul_lt_mul_left h5 (by omega)
    omega

/-- C8 witness: the general rule applied at the claim's concrete instance
(start 2026-01-25T08:00, interval 3, now 2026-01-30T10:00). -/
theorem every_n_days_next_occurrence_witness :
    calculate_next_occurrence (mkDT 0 8 0) (mkDT 5 10 0)
        RecurrenceType.every_n_days 3 none =
      mkDT 0 8 0 +
        (Int.fdiv (dateOf (mkDT 5 10 0) - dateOf (mkDT 0 8 0)) 3 + 1) * 3 * 1440 :=
  (every_n_days_next_occurrence.1 (mkDT 0 8 0) (mkDT 5 10 0) 3 none
    (by decide) (by decide)).1

/-- C8 counterexample: start 2026-01-25T23:00, interval 5, now
2026-01-30T10:00.  One interval (k = 1) already reaches past now
(2026-01-30T23:00 is later than now), but the code returns k = 2
(2026-02-04T23:00): k is not the smallest positive multiple reaching or
passing now as a datetime. -/
theorem every_n_days_not_minimal :
    calculate_next_occurrence (mkDT 0 23 0) (mkDT 5 10 0)
        RecurrenceType.every_n_days 5 none = mkDT 0 23 0 + 2 * 5 * 1440 ∧
    mkDT 5 10 0 ≤ mkDT 0 23 0 + 1 * 5 * 1440 ∧
    (0 : Int) < 1 ∧ (1 : Int) < 2 ∧
    mkDT 0 23 0 + 2 * 5 * 1440 ≠ mkDT 0 23 0 + 1 * 5 * 1440 := by
  decide

theorem timeOf_bounds (dt : Int) : 0 ≤ timeOf dt ∧ timeOf dt < 1440 := by
  simp only [timeOf, dateOf]
  rw [Int.fdiv_eq_ediv _ (by norm_num)]
  have h1 := Int.ediv_add_emod dt 1440
  have h2 : 0 ≤ dt % 1440 := Int.emod_nonneg dt (by norm_num)
  have h3 : dt % 1440 < 1440 := Int.emod_lt_of_pos dt (by norm_num)
  omega

/-- C9 (amended): get_day_range falls back to the midnight-to-midnight
range for every day-start string that does not parse as a valid time of
day, and get_effective_date falls back to now's date whenever its looser
colon-stripping digit parse fails; but get_effective_date does no range
validation, so a digit-parsable out-of-range string such as "25:00" is
accepted and shifts the effective date to the previous day for every
current time (now's minutes of day are always below 25*60).  Neither
function raises: every fallback is modelled as a total branch. -/
theorem day_start_fail_closed :
    (∀ (target : Int) (s : Option String),
       valid_day_start_string (day_start_or_default s) = false →
       get_day_range target true s = (target * 1440, (target + 1) * 1440)) ∧
    (∀ (now : Int) (s : Option String),
       parse_day_start_loose (day_start_or_default s) = none →
       get_effective_date now true s = dateOf now) ∧
    (∀ now : Int, get_effective_date now true (some "25:00") = dateOf now - 1) ∧
    valid_day_start_string (day_start_or_default (some "25:00")) = false := by
  refine ⟨?_, ?_, ?_, by decide⟩
  · intro target s hinvalid
    simp only [valid_day_start_string] at hinvalid
    simp only [get_day_range, Bool.not_true, Bool.false_eq_true, if_false]
    cases hp : parse_time_str (day_start_or_default s) with
    | none => rfl
    | some pr =>
      obtain ⟨hr, mi⟩ := pr
      rw [hp] at hinvalid
      have hv : valid_time_pair hr mi = false := hinvalid
      show (if valid_time_pair hr mi = true then
          (target * 1440 + hr * 60 + mi, (target + 1) * 1440 + hr * 60 + mi)
        else (target * 1440, (target + 1) * 1440)) = (target * 1440, (target + 1) * 1440)
      rw [hv]
      simp
  · intro now s hfail
    simp only [get_effective_date, Bool.not_true, Bool.false_eq_true, if_false, hfail]
  · intro now
    have hp : parse_day_start_loose (day_start_or_default (some "25:00")) =
        some (25, 0) := by decide
    simp only [get_effective_date, Bool.not_true, Bool.false_eq_true, if_false, hp]
    rw [if_pos]
    have := timeOf_bounds now
    omega

/-- C9 witness: the three fallback rules at concrete inputs ("25:00" is
rejected by the strict parse; "garbage" fails even the loose parse). -/
theorem day_start_fail_closed_witness :
    get_day_range 7 true (some "25:00") = (7 * 1440, 8 * 1440) ∧
    get_effective_date (mkDT 7 10 0) true (some "garbage") = dateOf (mkDT 7 10 0) ∧
    get_effective_date (mkDT 7 10 0) true (some "25:00") = dateOf (mkDT 7 10 0) - 1 := by
  refine ⟨?_, ?_, ?_⟩
  · exact (day_start_fail_closed.1 7 (some "25:00") (by decide)).trans (by decide)
  · exact day_start_fail_closed.2.1 (mkDT 7 10 0) (some "garbage") (by decide)
  · exact day_start_fail_closed.2.2.1 (mkDT 7 10 0)

/-- C9 counterexample: "25:00" is not a valid time, yet get_effective_date
at 2026-01-01-style day 7, 10:00 returns day 6, not the current calendar
date that fail-closed-to-midnight behaviour would give. -/
theorem effective_date_out_of_range_not_midnight :
    valid_day_start_string (day_start_or_default (some "25:00")) = false ∧
    get_effective_date (mkDT 7 10 0) true (some "25:00") = 6 ∧
    ((6 : Int) ≠ dateOf (mkDT 7 10 0)) := by
  decide

theorem le_foldl_pymax (ts : TaskStore) : ∀ a : Int,
    a ≤ ts.foldl (fun m t => pymax m t.id) a := by
  induction ts with
  | nil => intro a; simp
  | cons x l ih =>
    intro a
    simp only [List.foldl_cons]
    have h1 : a ≤ pymax a x.id := le_pymax_left a x.id
    have h2 := ih (pymax a x.id)
    omega

theorem mem_id_lt_fresh (ts : TaskStore) (t : TaskRow) (ht : t ∈ ts) :
    t.id < fresh_task_id ts := by
  have main : ∀ (l : TaskStore) (a : Int), t ∈ l →
      t.id ≤ l.foldl (fun m t => pymax m t.id) a := by
    intro l
    induction l with
    | nil => intro a h; simp at h
    | cons x xl ih =>
      intro a h
      rcases List.mem_cons.mp h with h1 | h1
      · simp only [List.foldl_cons]
        have h2 : t.id ≤ pymax a x.id := by
          rw [h1]
          simp only [pymax]
          split <;> omega
        have h3 := le_foldl_pymax xl (pymax a x.id)
        omega
      · simp only [List.foldl_cons]
        exact ih (pymax a x.id) h1
  have := main ts 0 ht
  simp only [fresh_task_id]
  omega

/-- C10: a missed recurring habit processed by roll_forward_missed_habit is
deleted, and the successor row inserted at the next due date restarts with
streak 0 whatever the original streak was. -/
theorem roll_forward_missed_habit_spec (ts : TaskStore) (hid : Int) (h : TaskRow)
    (from_date : Int)
    (hlook : get_task_by_id ts (some hid) = some h)
    (hhabit : h.is_habit = true)
    (hmissed : h.status ≠ "completed")
    (hrec : h.recurrence_type ≠ RecurrenceType.none) :
    ∃ nd, calculate_next_due_date h.recurrence_type
        (match h.due_date with | some dt => dateOf dt | none => from_date)
        h.recurrence_interval h.recurrence_days = some nd ∧
      roll_forward_missed_habit ts (some hid) from_date =
        (ts ++ [create_next_habit_occurrence ts h nd]).filter (fun t => t.id != h.id) ∧
      (create_next_habit_occurrence ts h nd).streak = 0 ∧
      (create_next_habit_occurrence ts h nd).due_date = some (nd * 1440) ∧
      (∀ t ∈ roll_forward_missed_habit ts (some hid) from_date, t.id ≠ h.id) ∧
      create_next_habit_occurrence ts h nd ∈
        roll_forward_missed_habit ts (some hid) from_date := by
  have hmem : h ∈ ts := by
    simp only [get_task_by_id] at hlook
    exact List.mem_of_find?_eq_some hlook
  obtain ⟨nd, hnd⟩ : ∃ nd, calculate_next_due_date h.recurrence_type
      (match h.due_date with | some dt => dateOf dt | none => from_date)
      h.recurrence_interval h.recurrence_days = some nd := by
    cases hr : h.recurrence_type with
    | none => exact absurd hr hrec
    | daily => exact ⟨_, rfl⟩
    | every_n_days => exact ⟨_, rfl⟩
    | weekly => exact ⟨_, rfl⟩
  have heq : roll_forward_missed_habit ts (some hid) from_date =
      (ts ++ [create_next_habit_occurrence ts h nd]).filter (fun t => t.id != h.id) := by
    simp only [roll_forward_missed_habit, hlook, hhabit, Bool.not_true,
               Bool.false_eq_true, if_false]
    rw [if_neg (by simp [hrec])]
    rw [hnd]
  have hstreak : (create_next_habit_occurrence ts h nd).streak = 0 := by
    simp only [create_next_habit_occurrence]
    rw [if_pos (by simpa using hmissed)]
  have hfresh : (create_next_habit_occurrence ts h nd).id ≠ h.id := by
    have := mem_id_lt_fresh ts h hmem
    simp only [create_next_habit_occurrence]
    omega
  refine ⟨nd, hnd, heq, hstreak, rfl, ?_, ?_⟩
  · intro t htmem
    rw [heq] at htmem
    have := (List.mem_filter.mp htmem).2
    simpa using this
  · rw [heq]
    refine List.mem_filter.mpr ⟨?_, by simpa using hfresh⟩
    exact List.mem_append.mpr (Or.inr (List.mem_singleton.mpr rfl))

/-- The concrete store for the C10 witness: an unrelated task (id 1) and a
missed skill habit (id 5, streak 9, due day 20, every 3 days). -/
def c10_habit : TaskRow :=
  { id := 5, is_habit := true, status := "pending",
    recurrence_type := RecurrenceType.every_n_days, recurrence_interval := 3,
    streak := 9, due_date := some (mkDT 20 0 0), habit_type := some "skill" }

def c10_store : TaskStore := [{ id := 1 }, c10_habit]

/-- C10 witness: rolling the concrete missed habit forward deletes row 5
and inserts a streak-0 successor due on day 23. -/
theorem roll_forward_missed_habit_spec_witness :
    ∃ nd, calculate_next_due_date c10_habit.recurrence_type
        (match c10_habit.due_date with | some dt => dateOf dt | none => 21)
        c10_habit.recurrence_interval c10_habit.recurrence_days = some nd ∧
      roll_forward_missed_habit c10_store (some 5) 21 =
        (c10_store ++ [create_next_habit_occurrence c10_store c10_habit nd]).filter
          (fun t => t.id != c10_habit.id) ∧
      (create_next_habit_occurrence c10_store c10_habit nd).streak = 0 ∧
      (create_next_habit_occurrence c10_store c10_habit nd).due_date = some (nd * 1440) ∧
      (∀ t ∈ roll_forward_missed_habit c10_store (some 5) 21, t.id ≠ c10_habit.id) ∧
      create_next_habit_occurrence c10_store c10_habit nd ∈
        roll_forward_missed_habit c10_store (some 5) 21 :=
  roll_forward_missed_habit_spec c10_store 5 c10_habit 21
    (by decide) (by decide) (by decide) (by decide)

/-- Day 0 holds 20 points and day 1 holds 5 when a 10-point penalty is
applied retroactively to day 0. -/
def c2_rec0 : PointHistory := { date := 0, cumulative_total := 20 }

def c2_rec1 : PointHistory := { date := 1, cumulative_total := 5 }

/-- C2 witness: the retroactive change on the two-row ledger stores the
clamped total for day 0. -/
theorem apply_net_change_propagation_witness :
    ∃ rd ∈ (apply_final_penalties [c2_rec0, c2_rec1] c2_rec0 10).1, rd.date = 0 ∧
      rd.cumulative_total = pymax 0 (c2_rec0.cumulative_total +
        (c2_rec0.points_bonus - 10)) :=
  (apply_net_change_propagation [c2_rec0, c2_rec1] 0 10 c2_rec0
    (by with_unfolding_all decide) (by decide)).2.1

/-- C2 counterexample: applying a net change of -10 to day 0 (total 20)
leaves day 1 (total 5) at 0, not at 5 - 10 = -5: the later row is clamped
at zero, so its cumulative_total does not shift by exactly delta. -/
theorem propagation_clamps_later_records :
    (get_by_date (apply_final_penalties [c2_rec0, c2_rec1] c2_rec0 10).1 1).map
        (fun h => h.cumulative_total) = some 0 ∧
    c2_rec1.cumulative_total + (pymax 0 (c2_rec0.cumulative_total +
      (c2_rec0.points_bonus - 10)) - c2_rec0.cumulative_total) = -5 ∧
    ((0 : Int) ≠ -5) := by
  with_unfolding_all decide
